import Mathlib

set_option maxRecDepth 100000

/-!
Verification of the lab-extraction system's core worker modules.

This file gives a shallow embedding of the relevant parts of
`src/workers/extraction/` (rate limiter, two-tier cache manager, strict
normalizer, OCR quality gate, patient identity matcher, result validation,
batch processor) and proves or refutes the frozen specification claims
about them.  Python machine values are modelled as follows: `int` becomes
`Nat`/`Int`, `float` becomes `Rat` (the code performs only arithmetic,
comparisons and `int()` truncation on floats), strings become `String`,
dictionaries become insertion-ordered association lists, and the external
LLM call becomes an oracle function parameter.
-/

namespace LabExtraction

/-! ## Python string helpers -/

/-- Python `str.lower()` (ASCII case folding, which is all the code relies on). -/
def pyLower (s : String) : String := String.mk (s.data.map Char.toLower)

/-- Python `str.upper()`. -/
def pyUpper (s : String) : String := String.mk (s.data.map Char.toUpper)

/-- Python `str.strip()`: remove leading and trailing whitespace. -/
def pyStrip (s : String) : String :=
  String.mk (((s.data.dropWhile Char.isWhitespace).reverse.dropWhile Char.isWhitespace).reverse)

/-- Contiguous-sublist test on character lists. -/
def charsInfix (needle : List Char) : List Char → Bool
  | [] => needle.isEmpty
  | c :: rest => needle.isPrefixOf (c :: rest) || charsInfix needle rest

/-- Python `needle in haystack` for strings: contiguous substring test. -/
def strContains (haystack needle : String) : Bool :=
  charsInfix needle.toList haystack.toList

/-- Tokenizer for `str.split()`: walk the characters keeping the (reversed)
current token. -/
def splitWsGo (acc : List Char) : List Char → List String
  | [] => if acc.isEmpty then [] else [String.mk acc.reverse]
  | c :: rest =>
    if c.isWhitespace then
      if acc.isEmpty then splitWsGo [] rest
      else String.mk acc.reverse :: splitWsGo [] rest
    else splitWsGo (c :: acc) rest

/-- Python `str.split()` with no argument: split on whitespace runs, dropping
empty pieces. -/
def pySplitWs (s : String) : List String :=
  splitWsGo [] s.data

/-- Python `str.endswith(c)` for a single-character suffix. -/
def pyEndsWithChar (s : String) (c : Char) : Bool :=
  match s.toList.getLast? with
  | some d => d = c
  | none => false

/-- Insertion-ordered dictionary update: `d[k] = v`.  If the key is present its
value is replaced in place (Python dicts keep the original position), otherwise
the pair is appended. -/
def dictInsert (d : List (String × String)) (k v : String) : List (String × String) :=
  match d with
  | [] => [(k, v)]
  | (k0, v0) :: rest =>
    if k0 = k then (k0, v) :: rest else (k0, v0) :: dictInsert rest k v

/-- Dictionary lookup `d.get(k)` on an association list. -/
def dictGet (d : List (String × String)) (k : String) : Option String :=
  match d with
  | [] => none
  | (k0, v0) :: rest => if k0 = k then some v0 else dictGet rest k

/-- Python `int()` applied to a float: truncation toward zero. -/
def pyInt (q : ℚ) : ℤ :=
  if 0 ≤ q then ⌊q⌋ else ⌈q⌉

/-! ## Adaptive rate limiter (`src/workers/extraction/rate_limiter.py`)

`RateLimitConfig` and `AdaptiveRateLimiter`.  Timestamps are rationals fed in
explicitly (the Python code reads `time.time()`); the lock is irrelevant to the
sequential state evolution modelled here. -/

/-- `RateLimitConfig` with the source defaults. -/
structure RateLimitConfig where
  requests_per_minute : ℕ := 15
  window_seconds : ℚ := 60
  adaptive_backoff : Bool := true
  backoff_factor : ℚ := 4 / 5
  recovery_threshold : ℕ := 10
  min_requests_per_minute : ℕ := 5
deriving Repr, DecidableEq

/-- Mutable state of `AdaptiveRateLimiter`: effective RPM, the sliding-window
deque of request timestamps (oldest first) and the success streak counter. -/
structure RateLimiterState where
  config : RateLimitConfig
  effective_rpm : ℕ
  requests : List ℚ
  consecutive_successes : ℕ
deriving Repr, DecidableEq

/-- `AdaptiveRateLimiter.__init__`. -/
def RateLimiterState.init (c : RateLimitConfig) : RateLimiterState :=
  { config := c
    effective_rpm := c.requests_per_minute
    requests := []
    consecutive_successes := 0 }

/-- `_clean_old_requests` at wall-clock time `now`: pop timestamps older than
`now - window_seconds` from the front of the deque. -/
def RateLimiterState.cleanOldRequests (st : RateLimiterState) (now : ℚ) : RateLimiterState :=
  { st with requests := st.requests.dropWhile (fun t => t < now - st.config.window_seconds) }

/-- `_wait_time` at time `now` (returns the wait together with the state after
the internal `_clean_old_requests`). -/
def RateLimiterState.waitTime (st : RateLimiterState) (now : ℚ) : ℚ × RateLimiterState :=
  let st1 := st.cleanOldRequests now
  if st1.requests.length < st1.effective_rpm then
    (0, st1)
  else
    match st1.requests.head? with
    | some oldest => (max 0 ((oldest + st1.config.window_seconds) - now), st1)
    | none => (0, st1)

/-- `acquire` entered at time `now`: compute the wait, sleep (wall clock becomes
`now + wait`), clean again if a wait happened, append the new timestamp. -/
def RateLimiterState.acquire (st : RateLimiterState) (now : ℚ) : RateLimiterState :=
  let w := st.waitTime now
  let t := now + w.1
  let st2 := if 0 < w.1 then w.2.cleanOldRequests t else w.2
  { st2 with requests := st2.requests ++ [t] }

/-- `report_rate_limit_error`: multiply the effective RPM by the backoff factor
(truncating to `int`), floor it at the configured minimum, reset the streak. -/
def RateLimiterState.reportRateLimitError (st : RateLimiterState) : RateLimiterState :=
  if !st.config.adaptive_backoff then st
  else
    { st with
      effective_rpm :=
        max (pyInt ((st.effective_rpm : ℚ) * st.config.backoff_factor)).toNat
          st.config.min_requests_per_minute
      consecutive_successes := 0 }

/-- `report_success`: bump the streak; once it reaches the recovery threshold
while throttled, grow the RPM by the inverse factor, capped at the maximum. -/
def RateLimiterState.reportSuccess (st : RateLimiterState) : RateLimiterState :=
  if !st.config.adaptive_backoff then st
  else
    let succ1 := st.consecutive_successes + 1
    if st.config.recovery_threshold ≤ succ1 ∧
        st.effective_rpm < st.config.requests_per_minute then
      { st with
        effective_rpm :=
          min (pyInt ((st.effective_rpm : ℚ) / st.config.backoff_factor)).toNat
            st.config.requests_per_minute
        consecutive_successes := 0 }
    else
      { st with consecutive_successes := succ1 }

/-- `reset`: clear the window, restore the configured RPM, zero the streak. -/
def RateLimiterState.reset (st : RateLimiterState) : RateLimiterState :=
  { st with
    requests := []
    effective_rpm := st.config.requests_per_minute
    consecutive_successes := 0 }

/-- One call against the rate limiter.  `acquire` carries the wall-clock time at
which it is entered. -/
inductive RateLimiterOp where
  | acquireAt (now : ℚ)
  | reportSuccess
  | reportRateLimitError
  | reset
deriving Repr, DecidableEq

/-- Apply one operation to the state. -/
def RateLimiterState.step (st : RateLimiterState) : RateLimiterOp → RateLimiterState
  | .acquireAt now => st.acquire now
  | .reportSuccess => st.reportSuccess
  | .reportRateLimitError => st.reportRateLimitError
  | .reset => st.reset

/-- Run a call sequence from a given state. -/
def RateLimiterState.run (st : RateLimiterState) (ops : List RateLimiterOp) : RateLimiterState :=
  ops.foldl RateLimiterState.step st

/-! ## Attribute surface of the rate limiter vs the batch processor (claim C1)

`BatchProcessor._process_single_image` awaits `self.rate_limiter.acquire_async()`
where `self.rate_limiter : AdaptiveRateLimiter`.  Python resolves the attribute
name at call time, so the call succeeds exactly when the name is defined on the
class.  The class body of `AdaptiveRateLimiter` defines the following methods
(the `acquire_async` definition at rate_limiter.py lines 83-93 is commented
out, annotated "For future use"). -/

/-- Method names defined on `AdaptiveRateLimiter` (rate_limiter.py lines 44-140). -/
def adaptiveRateLimiterMethods : List String :=
  ["__init__", "_async_lock_instance", "_clean_old_requests", "_wait_time",
   "acquire", "report_rate_limit_error", "report_success", "get_stats", "reset"]

/-- Method names invoked on `self.rate_limiter` by
`BatchProcessor._process_single_image` (batch_processor.py lines 188-273), in
program order; the first two are awaited. -/
def batchProcessorRateLimiterCalls : List String :=
  ["acquire_async", "acquire_async", "report_success", "report_rate_limit_error"]

/-! ## Two-tier cache manager (`src/workers/extraction/cache_manager.py`)

JSON-like values stand in for the Python dict payloads; the Redis and disk
backing stores are modelled as insertion-ordered key/value association lists
(serialisation is assumed faithful, which json/pickle are on the dict shapes
the code stores).  -/

/-- A Python value as stored in the cache (JSON-like). -/
inductive Val where
  | vnull
  | vbool (b : Bool)
  | vnum (q : ℚ)
  | vstr (s : String)
  | vlist (xs : List Val)
  | vobj (fields : List (String × Val))

/-- Python truthiness of a value (`if result:`). -/
def Val.truthy : Val → Bool
  | .vnull => false
  | .vbool b => b
  | .vnum q => q ≠ 0
  | .vstr s => s ≠ ""
  | .vlist xs => !xs.isEmpty
  | .vobj fields => !fields.isEmpty

/-- Association-list store update (`redis.setex` / overwrite of a disk file). -/
def storeSet (store : List (String × Val)) (k : String) (v : Val) : List (String × Val) :=
  match store with
  | [] => [(k, v)]
  | (k0, v0) :: rest => if k0 = k then (k0, v) :: rest else (k0, v0) :: storeSet rest k v

/-- Association-list store read. -/
def storeGet (store : List (String × Val)) (k : String) : Option Val :=
  match store with
  | [] => none
  | (k0, v0) :: rest => if k0 = k then some v0 else storeGet rest k

/-- `CacheConfig` (only the fields the modelled paths read). -/
structure CacheConfig where
  redis_enabled : Bool := true
  disk_enabled : Bool := true
deriving Repr, DecidableEq

/-- `CacheStats`. -/
structure CacheStats where
  redis_hits : ℕ := 0
  redis_misses : ℕ := 0
  disk_hits : ℕ := 0
  disk_misses : ℕ := 0
  cache_writes : ℕ := 0
deriving Repr, DecidableEq

/-- `CacheManager` state: config, whether a Redis client is attached, the two
backing stores, and the hit/miss statistics. -/
structure CacheManager where
  config : CacheConfig
  hasRedisClient : Bool
  redisStore : List (String × Val)
  diskStore : List (String × Val)
  stats : CacheStats

/-- `_get_from_redis`. -/
def CacheManager.getFromRedis (cm : CacheManager) (imageHash : String) : Option Val :=
  storeGet cm.redisStore imageHash

/-- `_set_to_redis`. -/
def CacheManager.setToRedis (cm : CacheManager) (imageHash : String) (data : Val) : CacheManager :=
  { cm with redisStore := storeSet cm.redisStore imageHash data }

/-- `_get_from_disk`. -/
def CacheManager.getFromDisk (cm : CacheManager) (imageHash : String) : Option Val :=
  storeGet cm.diskStore imageHash

/-- `_set_to_disk`. -/
def CacheManager.setToDisk (cm : CacheManager) (imageHash : String) (data : Val) : CacheManager :=
  { cm with diskStore := storeSet cm.diskStore imageHash data }

/-- Helper for the code's `if result:` applied to an optional store read: a hit
is a present, truthy value. -/
def truthyHit : Option Val → Option Val
  | some v => if v.truthy then some v else none
  | none => none

/-- The Tier-1 (Redis) step of `get_cached_result`: the hit value, if any, and
the stats update. -/
def CacheManager.redisLookupStep (cm : CacheManager) (imageHash : String) :
    Option Val × CacheManager :=
  if cm.config.redis_enabled ∧ cm.hasRedisClient then
    match truthyHit (cm.getFromRedis imageHash) with
    | some v =>
      (some v, { cm with stats := { cm.stats with redis_hits := cm.stats.redis_hits + 1 } })
    | none =>
      (none, { cm with stats := { cm.stats with redis_misses := cm.stats.redis_misses + 1 } })
  else (none, cm)

/-- `get_cached_result` (cache_manager.py lines 130-166): try Redis, then disk;
promote a disk hit into Redis; return `none` on a double miss.  Returns the
result together with the updated manager (stats and promotion). -/
def CacheManager.getCachedResult (cm : CacheManager) (imageHash : String) :
    Option Val × CacheManager :=
  let r1 := cm.redisLookupStep imageHash
  match r1.1 with
  | some v => (some v, r1.2)
  | none =>
    -- Tier 2: disk
    if r1.2.config.disk_enabled then
      match truthyHit (r1.2.getFromDisk imageHash) with
      | some v =>
        let cm2 := { r1.2 with stats := { r1.2.stats with disk_hits := r1.2.stats.disk_hits + 1 } }
        let cm3 :=
          if cm2.config.redis_enabled ∧ cm2.hasRedisClient then cm2.setToRedis imageHash v
          else cm2
        (some v, cm3)
      | none =>
        (none,
         { r1.2 with stats := { r1.2.stats with disk_misses := r1.2.stats.disk_misses + 1 } })
    else (none, r1.2)

/-- The wrapper entry `cache_result` builds around the payload
(cache_manager.py lines 182-186); `cachedAt` models `datetime.utcnow().isoformat()`. -/
def mkCacheEntry (result : Val) (cachedAt : String) (metadata : Option Val) : Val :=
  .vobj [("result", result), ("cached_at", .vstr cachedAt),
         ("metadata", metadata.getD (.vobj []))]

/-- Field access `entry["result"]` on a stored object value. -/
def objField (v : Val) (k : String) : Option Val :=
  match v with
  | .vobj fields => storeGet fields k
  | _ => none

/-- `cache_result` (cache_manager.py lines 168-197): wrap the payload into an
entry and write it to both enabled tiers. -/
def CacheManager.cacheResult (cm : CacheManager) (imageHash : String) (result : Val)
    (cachedAt : String) (metadata : Option Val) : CacheManager :=
  let entry := mkCacheEntry result cachedAt metadata
  let cm1 :=
    if cm.config.redis_enabled ∧ cm.hasRedisClient then cm.setToRedis imageHash entry else cm
  let cm2 := if cm1.config.disk_enabled then cm1.setToDisk imageHash entry else cm1
  { cm2 with stats := { cm2.stats with cache_writes := cm2.stats.cache_writes + 1 } }

/-! ## OCR quality gate (`src/workers/extraction/ocr_quality.py`)

The per-image metric extraction (`_calculate_blur_score`, `_estimate_text_clarity`,
numpy statistics, ...) is floating-point image analysis; the gate's decision
logic is modelled as a function of the measured metric values, exactly as
`evaluate_ocr_quality` consumes them after computing `metrics`.  Issue strings
keep every literal fragment of the Python format strings; the interpolated
measured values are elided (they are digit/dot text and never contain the
keywords the scoring cascade searches for), while interpolated threshold
constants are kept. -/

/-- Measured metrics, as stored into the `metrics` dict of `evaluate_ocr_quality`. -/
structure OcrMetrics where
  width : ℕ
  height : ℕ
  blur_score : ℚ
  text_clarity : ℚ
  contrast : ℚ
  brightness : ℚ
  text_density : ℚ
  skew_angle : ℚ
  noise_level : ℚ
  uniform_ratio : ℚ
deriving Repr, DecidableEq

/-- `min_dimension = min(width, height)`. -/
def OcrMetrics.minDimension (m : OcrMetrics) : ℕ := min m.width m.height

/-- `QualityResult`. -/
structure QualityResult where
  is_acceptable : Bool
  quality_score : ℚ
  issues : List String
  metrics : OcrMetrics
  recommendation : String
  needs_preprocessing : Bool
deriving Repr, DecidableEq

/-- The critical noisy-scan issue inserted by the high-contrast/low-clarity guard. -/
def noisyScanIssue : String := "CRITICAL: Noisy scan detected (contrast=, clarity=)"

/-- The critical too-blurry issue. -/
def criticalBlurIssue : String := "CRITICAL: Image too blurry to read (blur=, min=25)"

/-- The critical blur-plus-poor-clarity issue. -/
def criticalBlurClarityIssue : String :=
  "CRITICAL: Blurry image with poor text clarity (blur=, clarity=)"

/-- The critical unreadable-text issue. -/
def criticalUnreadableIssue : String := "CRITICAL: Text is unreadable (clarity: )"

/-- A conditional singleton: the issue appended when its condition fires. -/
def optIf (c : Prop) [Decidable c] (s : String) : List String :=
  if c then [s] else []

/-- The blur severity text of issue 2 (the "slightly blurry" arm is dead code,
since it needs `blur_score < 50` and `80 ≤ blur_score` at once). -/
def blurSeverity (m : OcrMetrics) : String :=
  if m.blur_score < 25 then "extremely blurry"
  else if m.blur_score < 80 then "very blurry"
  else "slightly blurry"

/-- Issue collection pass of `evaluate_ocr_quality` (ocr_quality.py lines
65-163): each check appends its message when it fires, in program order (the
appends are independent, so the sequential loop is this concatenation). -/
def collectIssues (m : OcrMetrics) : List String :=
  optIf (m.minDimension < 400) "Low resolution: x (min: 400)" ++
  optIf (m.blur_score < 50) ("Image is " ++ blurSeverity m ++ " (score: , min: 50)") ++
  optIf (m.text_clarity < 2/5) "Very low text clarity:  - text may be unreadable" ++
  optIf (¬m.text_clarity < 2/5 ∧ m.text_clarity < 55/100)
    "Low text clarity:  - OCR accuracy may be affected" ++
  optIf (m.contrast < 35) "Low contrast:  (min: 35)" ++
  optIf (¬m.contrast < 35 ∧ 90 < m.contrast)
    "Over-processed/high contrast:  - may indicate noise or artifacts" ++
  optIf (m.brightness < 50) "Image is too dark:  (min: 50)" ++
  optIf (¬m.brightness < 50 ∧ 220 < m.brightness) "Image is washed out:  (max: 220)" ++
  optIf (m.text_density < 3/100) "Low text density:  - may be partial document" ++
  optIf (5 < |m.skew_angle|) "Document is skewed: ° (max: 5.0°)" ++
  optIf (15/100 < m.noise_level) "High noise level: " ++
  optIf (1/2 < m.uniform_ratio) "Large uniform regions detected - possible scanning issue"

/-- The `needs_preprocessing` flag set alongside the issues (the checks that set
it are resolution, very low clarity, both contrast arms, both brightness arms,
skew and noise). -/
def needsPreprocessingFlag (m : OcrMetrics) : Bool :=
  decide (m.minDimension < 400) || decide (m.text_clarity < 2/5) ||
  decide (m.contrast < 35) || decide (90 < m.contrast) ||
  decide (m.brightness < 50) || decide (220 < m.brightness) ||
  decide (5 < |m.skew_angle|) || decide (15/100 < m.noise_level)

/-- Per-issue penalty of `_calculate_quality_score` (the substring cascade over
the lower-cased issue text). -/
def issuePenalty (issue : String) : ℚ :=
  let l := pyLower issue
  if strContains l "very low text clarity" || strContains l "unreadable" then 35/100
  else if strContains l "very" || strContains l "too dark" || strContains l "washed out" then
    25/100
  else if strContains l "blurry" || strContains l "skewed" || strContains l "noise" then 20/100
  else if strContains l "low text clarity" || strContains l "over-processed" then 20/100
  else if strContains l "low" then 15/100
  else 10/100

/-- `_calculate_quality_score` (ocr_quality.py lines 451-498): start from 1.0,
subtract per-issue penalties, add the direct clarity penalty and metric bonuses,
clamp to [0, 1]. -/
def calculateQualityScore (m : OcrMetrics) (issues : List String) : ℚ :=
  let score : ℚ := 1 - (issues.map issuePenalty).sum
  let score := if m.text_clarity < 2/5 then score - (2/10) * (2/5 - m.text_clarity) else score
  let score := if 1200 ≤ m.minDimension then score + 1/10 else score
  let score := if 300 ≤ m.blur_score then score + 5/100 else score
  let score := if 50 ≤ m.contrast ∧ m.contrast ≤ 80 then score + 1/10 else score
  let score := if 100 ≤ m.brightness ∧ m.brightness ≤ 180 then score + 5/100 else score
  let score := if |m.skew_angle| < 1 then score + 5/100 else score
  let score := if 7/10 ≤ m.text_clarity then score + 1/10 else score
  max 0 (min 1 score)

/-- `"CRITICAL" not in str(issues)` (negated): some issue text contains "CRITICAL". -/
def issuesHaveCritical (issues : List String) : Bool :=
  issues.any (fun i => strContains i "CRITICAL")

/-- `"noisy scan" in str(issues).lower()`. -/
def issuesHaveNoisyScan (issues : List String) : Bool :=
  issues.any (fun i => strContains (pyLower i) "noisy scan")

/-- Base acceptance: score ≥ 0.3 and text clarity ≥ 0.20. -/
def baseAcceptable (m : OcrMetrics) : Bool :=
  if 3/10 ≤ calculateQualityScore m (collectIssues m) ∧ 1/5 ≤ m.text_clarity then true else false

/-- First guard of the acceptance logic: critically low blur score, or blur
combined with low clarity, rejects and inserts a CRITICAL issue at the front
(unless one is already present). -/
def guardBlur (m : OcrMetrics) (acc : Bool) (issues : List String) : Bool × List String :=
  if m.blur_score < 25 then
    (false, if issuesHaveCritical issues then issues else criticalBlurIssue :: issues)
  else if m.blur_score < 50 ∧ m.text_clarity < 1/2 then
    (false, if issuesHaveCritical issues then issues else criticalBlurClarityIssue :: issues)
  else (acc, issues)

/-- Second guard: high contrast plus low clarity is the noisy-scan signature. -/
def guardNoisy (m : OcrMetrics) (acc : Bool) (issues : List String) : Bool × List String :=
  if 85 < m.contrast ∧ m.text_clarity < 45/100 then
    (false, if issuesHaveNoisyScan issues then issues else noisyScanIssue :: issues)
  else (acc, issues)

/-- Third guard: extremely low clarity regardless of contrast. -/
def guardClarity (m : OcrMetrics) (acc : Bool) (issues : List String) : Bool × List String :=
  if m.text_clarity < 1/4 then
    (false, if issuesHaveCritical issues then issues else criticalUnreadableIssue :: issues)
  else (acc, issues)

/-- `evaluate_ocr_quality` decision logic (ocr_quality.py lines 165-229): compute
the score from the collected issues, then apply the base threshold and the
explicit guard rules in order. -/
def evaluateOcrQuality (m : OcrMetrics) : QualityResult :=
  let issues := collectIssues m
  let score := calculateQualityScore m issues
  let s1 := guardBlur m (baseAcceptable m) issues
  let s2 := guardNoisy m s1.1 s1.2
  let s3 := guardClarity m s2.1 s2.2
  let recommendation :=
    if s3.1 = false then "Poor quality - text unreadable, consider re-scanning"
    else if 8/10 ≤ score then "Excellent quality document"
    else if 6/10 ≤ score then "Good quality, minor issues detected"
    else if 4/10 ≤ score then "Acceptable quality, some values may need review"
    else if 3/10 ≤ score then "Low quality - extraction attempted but manual review required"
    else "Poor quality - may fail extraction, consider re-scanning"
  { is_acceptable := s3.1
    quality_score := score
    issues := s3.2
    metrics := m
    recommendation := recommendation
    needs_preprocessing := needsPreprocessingFlag m }

/-! ## Patient identity matcher (`src/workers/extraction/single_vision_extractor.py`)

`_patient_memory` is a `deque(maxlen=20)`; `uuid.uuid4().hex[:8].upper()` is an
injected fresh-id parameter. -/

/-- `PatientMemoryEntry`. -/
structure PatientMemoryEntry where
  document_id : String
  patient_name : Option String
  patient_id : String
  age : Option String
  gender : Option String
  timestamp : ℚ
deriving Repr, DecidableEq

/-- The extracted patient fields consumed and produced by
`_process_patient_identity` (`patient_info` dict). -/
structure PatientInfo where
  name : Option String
  patient_id : Option String
  age : Option String
  gender : Option String
  matched_from_memory : Bool := false
  auto_generated_id : Bool := false
deriving Repr, DecidableEq

/-- Python truthiness of an optional string: absent and empty are both falsy. -/
def pyTruthyStr (o : Option String) : Bool := o.getD "" ≠ ""

/-- Append to the fixed-capacity ring `deque(maxlen=20)`: the oldest entry is
evicted once 20 are held. -/
def addToPatientMemory (mem : List PatientMemoryEntry) (e : PatientMemoryEntry) :
    List PatientMemoryEntry :=
  let l := mem ++ [e]
  l.drop (l.length - 20)

/-- `_names_similar` on the already lower-cased/stripped names: the (distinct)
shared words, with the short-name special case. -/
def namesSimilar (name1 name2 : String) : Bool :=
  let words1 := (pySplitWs name1).toFinset
  let words2 := (pySplitWs name2).toFinset
  let common := (words1 ∩ words2).card
  2 ≤ common ∨ (1 ≤ common ∧ max words1.card words2.card ≤ 2)

/-- Age compatibility inside `_match_patient_from_memory`: when both age strings
are truthy their first whitespace tokens must agree, otherwise compatible.  (On
a whitespace-only truthy age the Python indexing `age.split()[0]` would raise;
the model compares the empty default instead, and the theorems below stay away
from that input.) -/
def ageCompatible (age entryAge : Option String) : Bool :=
  match age, entryAge with
  | some a, some b =>
    if a ≠ "" ∧ b ≠ "" then (pySplitWs a).headD "" = (pySplitWs b).headD ""
    else true
  | _, _ => true

/-- Gender compatibility: when both are truthy their upper-cased first
characters must agree. -/
def genderCompatible (g entryG : Option String) : Bool :=
  match g, entryG with
  | some a, some b =>
    if a ≠ "" ∧ b ≠ "" then
      match a.toList.head?, b.toList.head? with
      | some c1, some c2 => c1.toUpper = c2.toUpper
      | _, _ => true
    else true
  | _, _ => true

/-- The most-recent-first scan of `_match_patient_from_memory`: the argument
list is already reversed (most recent head). -/
def scanPatientMemory (nameLower : String) (age gender : Option String) :
    List PatientMemoryEntry → Option String
  | [] => none
  | e :: rest =>
    let skip := scanPatientMemory nameLower age gender rest
    match e.patient_name with
    | none => skip
    | some en =>
      if en = "" then skip
      else
        let entryName := pyStrip (pyLower en)
        if nameLower = entryName then some e.patient_id
        else if namesSimilar nameLower entryName ∧ ageCompatible age e.age ∧
            genderCompatible gender e.gender then
          some e.patient_id
        else skip

/-- `_match_patient_from_memory` (single_vision_extractor.py lines 807-848). -/
def matchPatientFromMemory (mem : List PatientMemoryEntry)
    (patientName age gender : Option String) : Option String :=
  match patientName with
  | none => none
  | some n =>
    if n = "" then none
    else scanPatientMemory (pyStrip (pyLower n)) age gender mem.reverse

/-- `_process_patient_identity` (single_vision_extractor.py lines 736-784):
declared id wins; otherwise match against memory; otherwise mint
`"AUTO-" ++ freshId`.  Returns the updated info and memory. -/
def processPatientIdentity (mem : List PatientMemoryEntry) (info : PatientInfo)
    (documentId freshId : String) (now : ℚ) : PatientInfo × List PatientMemoryEntry :=
  if pyTruthyStr info.patient_id then
    (info,
     addToPatientMemory mem
       ⟨documentId, info.name, info.patient_id.getD "", info.age, info.gender, now⟩)
  else
    match matchPatientFromMemory mem info.name info.age info.gender with
    | some mid =>
      ({ info with patient_id := some mid, matched_from_memory := true },
       addToPatientMemory mem ⟨documentId, info.name, mid, info.age, info.gender, now⟩)
    | none =>
      let nid := "AUTO-" ++ freshId
      ({ info with patient_id := some nid, auto_generated_id := true },
       addToPatientMemory mem ⟨documentId, info.name, nid, info.age, info.gender, now⟩)

/-! ## Normalized results and `_validate_results`
(`src/workers/extraction/strict_normalizer.py`, `single_vision_extractor.py`) -/

/-- `NormalizedResult` dataclass of the strict normalizer. -/
structure NormalizedResult where
  test_name : String
  original_name : String
  value : String
  value_numeric : Option ℚ := none
  unit : String := ""
  reference_range : String := ""
  ref_low : Option ℚ := none
  ref_high : Option ℚ := none
  flag : String := ""
  loinc_code : String := ""
  category : String := ""
  needs_review : Bool := false
  review_reason : String := ""
  mapping_method : String := ""
deriving Repr, DecidableEq

/-- The deduplication key used by `_validate_results`: canonical name lower-cased,
or the raw name lower-cased for UNKNOWN rows. -/
def resultKey (r : NormalizedResult) : String :=
  if r.test_name ≠ "UNKNOWN" then pyLower r.test_name else pyLower r.original_name

/-- The wide physiological limits table of `_is_physiologically_valid`. -/
def physiologicalLimits : List (String × ℚ × ℚ) :=
  [("hemoglobin", 3, 25), ("rbc", 1, 10), ("wbc", 1/2, 100), ("platelet", 10, 2000),
   ("sodium", 100, 180), ("potassium", 3/2, 10), ("glucose", 20, 1000),
   ("creatinine", 1/10, 30)]

/-- Scan the limits table: the first pattern contained in the name decides. -/
def checkLimits (name : String) (v : ℚ) : List (String × ℚ × ℚ) → Bool
  | [] => true
  | (pat, lo, hi) :: rest =>
    if strContains name pat then
      if v < lo ∨ hi < v then false else true
    else checkLimits name v rest

/-- `_is_physiologically_valid` (single_vision_extractor.py lines 672-698). -/
def isPhysiologicallyValid (r : NormalizedResult) : Bool :=
  match r.value_numeric with
  | none => true
  | some v => checkLimits (pyLower r.test_name) v physiologicalLimits

/-- The physiological-outlier mutation `_validate_results` applies to a kept row. -/
def applyPhysiologicalCheck (r : NormalizedResult) : NormalizedResult :=
  if r.test_name ≠ "UNKNOWN" ∧ r.value_numeric.isSome ∧ isPhysiologicallyValid r = false then
    { r with
      needs_review := true
      review_reason :=
        if r.review_reason ≠ "" then r.review_reason ++ "; physiological_outlier"
        else "physiological_outlier" }
  else r

/-- Loop body of `_validate_results` with the `seen_tests` accumulator. -/
def validateResultsGo (seen : List String) : List NormalizedResult → List NormalizedResult
  | [] => []
  | r :: rest =>
    let key := resultKey r
    if key ∈ seen then validateResultsGo seen rest
    else applyPhysiologicalCheck r :: validateResultsGo (key :: seen) rest

/-- `_validate_results` (single_vision_extractor.py lines 647-670). -/
def validateResults (results : List NormalizedResult) : List NormalizedResult :=
  validateResultsGo [] results

/-- First-occurrence key deduplication, the specification-level description of
what `_validate_results` does to the key sequence. -/
def dedupKeysGo (seen : List String) : List String → List String
  | [] => []
  | k :: rest => if k ∈ seen then dedupKeysGo seen rest else k :: dedupKeysGo (k :: seen) rest

/-! ## Strict normalizer (`src/workers/extraction/strict_normalizer.py`)

Number tokens follow the regex `[-+]?\d*\.?\d+` used by `_parse_value` and
`_parse_reference_range`; the three cleaning substitutions of `_map_test_name`
are implemented with their exact regex semantics. -/

/-- Attempt to match one `[-+]?\d*\.?\d+` token at the head of the character
list, with the regex's backtracking semantics: greedy integer digits, then a
fractional part only when a dot is followed by at least one digit. -/
def matchNumberAt (cs : List Char) : Option (List Char) :=
  let (sign, rest) :=
    match cs with
    | c :: r => if c = '-' ∨ c = '+' then ([c], r) else (([] : List Char), cs)
    | [] => ([], [])
  let d1 := rest.takeWhile Char.isDigit
  let rest1 := rest.dropWhile Char.isDigit
  match rest1 with
  | '.' :: r2 =>
    let d2 := r2.takeWhile Char.isDigit
    if d2 ≠ [] then some (sign ++ d1 ++ '.' :: d2)
    else if d1 ≠ [] then some (sign ++ d1)
    else none
  | _ => if d1 ≠ [] then some (sign ++ d1) else none

/-- `re.search`: the leftmost number token, if any. -/
def findNumber : List Char → Option (List Char)
  | [] => none
  | c :: rest =>
    match matchNumberAt (c :: rest) with
    | some tok => some tok
    | none => findNumber rest

/-- Fuelled scan for `re.findall`: non-overlapping matches left to right,
resuming after each token. -/
def findAllNumbersGo (fuel : ℕ) (cs : List Char) : List (List Char) :=
  match fuel with
  | 0 => []
  | fuel + 1 =>
    match cs with
    | [] => []
    | c :: rest =>
      match matchNumberAt (c :: rest) with
      | some tok => tok :: findAllNumbersGo fuel ((c :: rest).drop tok.length)
      | none => findAllNumbersGo fuel rest

/-- `re.findall(r'[-+]?\d*\.?\d+', s)`. -/
def findAllNumbers (cs : List Char) : List (List Char) :=
  findAllNumbersGo cs.length cs

/-- Decimal digits to a natural number. -/
def digitsToNat (cs : List Char) : ℕ :=
  cs.foldl (fun n c => n * 10 + (c.toNat - '0'.toNat)) 0

/-- Python `float()` on a matched number token. -/
def strToRat (cs : List Char) : ℚ :=
  let unsignedPart : List Char → ℚ := fun ds =>
    let ip := ds.takeWhile Char.isDigit
    let rest := ds.dropWhile Char.isDigit
    match rest with
    | '.' :: fr => (digitsToNat ip : ℚ) + (digitsToNat fr : ℚ) / ((10 : ℚ) ^ fr.length)
    | _ => (digitsToNat ip : ℚ)
  match cs with
  | '-' :: r => -(unsignedPart r)
  | '+' :: r => unsignedPart r
  | _ => unsignedPart cs

/-- `re.sub(r'\s*[%$#]\s*$', '', s)`: strip one trailing `%`/`$`/`#` together
with the whitespace around it. -/
def cleanSuffixSymbol (cs : List Char) : List Char :=
  let rev := cs.reverse
  let rev1 := rev.dropWhile Char.isWhitespace
  match rev1 with
  | c :: r =>
    if c = '%' ∨ c = '$' ∨ c = '#' then (r.dropWhile Char.isWhitespace).reverse else cs
  | [] => cs

/-- `re.sub(r'\s+count\s*$', '', s)`: strip a trailing " count" (at least one
whitespace before the word). -/
def cleanSuffixCount (cs : List Char) : List Char :=
  let rev := cs.reverse
  let rev1 := rev.dropWhile Char.isWhitespace
  if ['t', 'n', 'u', 'o', 'c'].isPrefixOf rev1 then
    let r := rev1.drop 5
    let r1 := r.dropWhile Char.isWhitespace
    if r1.length < r.length then r1.reverse else cs
  else cs

/-- Find the start index of the leftmost `\s+\(` whose `(` lies before position
`k`, walking the list with the running index and previous character. -/
def findParenOpen (k : ℕ) : ℕ → Option Char → List Char → Option ℕ
  | _, _, [] => none
  | i, prev, c :: rest =>
    let prevWs : Bool := match prev with | some p => p.isWhitespace | none => false
    if c = '(' ∧ i < k ∧ prevWs then some i
    else findParenOpen k (i + 1) (some c) rest

/-- `re.sub(r'\s+\(.*\)\s*$', '', s)`: when the last non-whitespace character is
`)`, cut at the whitespace run before the leftmost eligible `(`. -/
def cleanSuffixParen (cs : List Char) : List Char :=
  let rev := cs.reverse
  let revNoWs := rev.dropWhile Char.isWhitespace
  match revNoWs with
  | ')' :: _ =>
    let k := revNoWs.length - 1
    match findParenOpen k 0 none cs with
    | some i =>
      let taken := cs.take i
      (taken.reverse.dropWhile Char.isWhitespace).reverse
    | none => cs
  | _ => cs

/-- The suffix cleaning of `_map_test_name` (strict_normalizer.py lines 361-363). -/
def cleanName (s : String) : String :=
  (cleanSuffixParen (cleanSuffixCount (cleanSuffixSymbol s.toList))).asString

/-- `_parse_reference_range` (strict_normalizer.py lines 185-210).  The
`float()` calls cannot raise on tokens of the number grammar, so the
`ValueError` arms are dead. -/
def parseReferenceRange (ref : String) : Option ℚ × Option ℚ :=
  if ref = "" then (none, none)
  else
    let ms := findAllNumbers ref.toList
    if 2 ≤ ms.length then
      (some (strToRat (ms.headD [])), some (strToRat ((ms.drop 1).headD [])))
    else if ms.length = 1 then
      let v := strToRat (ms.headD [])
      if strContains ref "<" then (none, some v)
      else if strContains ref ">" then (some v, none)
      else (none, none)
    else (none, none)

/-- The trailing direction-marker removal of `_parse_value`:
`re.sub(r'[↑↓HLhl\*]$', '', s)`. -/
def removeTrailingFlagChar (s : String) : String :=
  let cs := s.toList
  match cs.getLast? with
  | some c =>
    if c ∈ ['↑', '↓', 'H', 'L', 'h', 'l', '*'] then cs.dropLast.asString else s
  | none => s

/-- `_parse_value` (strict_normalizer.py lines 463-479). -/
def parseValue (rawValue : String) : String × Option ℚ :=
  if rawValue = "" then ("", none)
  else
    let cleaned := pyStrip rawValue
    let cleaned := pyStrip (removeTrailingFlagChar cleaned)
    match findNumber cleaned.toList with
    | some tok => (cleaned, some (strToRat tok))
    | none => (cleaned, none)

/-- `_normalize_flag` (strict_normalizer.py lines 481-501). -/
def normalizeFlag (flagRaw valueRaw : String) : String :=
  if flagRaw = "" then
    if valueRaw ≠ "" then
      if strContains valueRaw "↑" ∨ pyEndsWithChar (pyUpper valueRaw) 'H' then "H"
      else if strContains valueRaw "↓" ∨ pyEndsWithChar (pyUpper valueRaw) 'L' then "L"
      else ""
    else ""
  else
    let flag := pyStrip (pyUpper flagRaw)
    if flag = "H" ∨ flag = "HIGH" ∨ flag = "↑" then "H"
    else if flag = "L" ∨ flag = "LOW" ∨ flag = "↓" then "L"
    else if flag = "N" ∨ flag = "NORMAL" then "N"
    else if flag ≠ "" then (flag.toList.take 1).asString
    else ""

/-- `_is_non_test_text` skip patterns. -/
def skipPatterns : List String :=
  ["hospital", "laboratory", "report", "date", "time", "sample",
   "patient", "doctor", "method", "instrument",
   "normal range", "reference", "investigation", "parameter",
   "result", "printed", "page", "test name", "lab no", "uhid"]

/-- `_is_non_test_text` (strict_normalizer.py lines 311-329). -/
def isNonTestText (text : String) : Bool :=
  skipPatterns.any (fun p => strContains (pyLower text) p) || text.length < 2

/-- `PANEL_DEFINITIONS` (strict_normalizer.py lines 57-87). -/
def panelDefinitions : List (String × List String) :=
  [("cbc", ["hemoglobin", "red_blood_cells", "white_blood_cells", "platelets",
            "hematocrit", "mcv", "mch", "mchc", "rdw", "mpv"]),
   ("differential", ["neutrophils", "lymphocytes", "monocytes", "eosinophils", "basophils",
                     "esr"]),
   ("abg", ["ph", "pco2", "po2", "hco3_abg", "base_excess", "oxygen_saturation", "lactate",
            "ionized_calcium"]),
   ("electrolytes", ["sodium", "potassium", "chloride", "bicarbonate", "calcium",
                     "phosphorus", "magnesium"]),
   ("liver", ["alt", "ast", "alp", "ggt", "total_bilirubin", "direct_bilirubin",
              "indirect_bilirubin", "total_protein", "albumin", "globulin", "ag_ratio"]),
   ("kidney", ["creatinine", "blood_urea_nitrogen", "uric_acid", "egfr"]),
   ("lipid", ["total_cholesterol", "ldl_cholesterol", "hdl_cholesterol", "triglycerides",
              "vldl"]),
   ("thyroid", ["tsh", "free_t3", "free_t4", "total_t3", "total_t4"]),
   ("diabetes", ["fasting_glucose", "random_glucose", "postprandial_glucose", "hba1c"])]

/-- `PANEL_KEYWORDS` (strict_normalizer.py lines 90-100). -/
def panelKeywords : List (String × List String) :=
  [("cbc", ["hemoglobin", "hb", "rbc", "wbc", "platelet", "plt", "pcv", "hct", "mcv",
            "mch", "mchc", "rdw", "haemoglobin"]),
   ("differential", ["neutrophil", "lymphocyte", "monocyte", "eosinophil", "basophil",
                     "neut", "lymph", "mono", "eos", "baso", "differential"]),
   ("abg", ["pco2", "po2", "hco3", "base excess", "sao2", "blood gas", "abg"]),
   ("electrolytes", ["sodium", "potassium", "chloride", "calcium", "magnesium",
                     "na+", "k+", "cl-"]),
   ("liver", ["alt", "ast", "sgpt", "sgot", "bilirubin", "alp", "ggt", "albumin"]),
   ("kidney", ["creatinine", "urea", "bun", "egfr", "uric acid"]),
   ("lipid", ["cholesterol", "triglyceride", "hdl", "ldl", "vldl"]),
   ("thyroid", ["tsh", "t3", "t4", "thyroid"]),
   ("diabetes", ["glucose", "hba1c", "sugar", "fasting", "random"])]

/-- `_detect_panel` (strict_normalizer.py lines 331-340): first panel (in table
order) with a keyword occurring inside the lower-cased name. -/
def detectPanel (rawName : String) : Option String :=
  (panelKeywords.find? (fun pk => pk.2.any (fun kw => strContains (pyLower rawName) kw))).map
    Prod.fst

/-- One entry of the canonical vocabulary (`test_mappings.yaml` entries). -/
structure TestMapping where
  canonical_name : String
  loinc_code : String
  category : String
  unit : String
  aliases : List String
deriving Repr, DecidableEq

/-- The vocabulary: key → test mapping, in file order. -/
def Mappings : Type := List (String × TestMapping)

/-- `self.mappings.get(key)`. -/
def mappingsGet (m : Mappings) (k : String) : Option TestMapping :=
  match m with
  | ([] : List (String × TestMapping)) => none
  | (k0, tm) :: rest => if k0 = k then some tm else mappingsGet rest k

/-- Modelled from the spec: the canonical vocabulary resource
(`config/test_mappings.yaml`, "key → canonical name, LOINC code, category,
unit, aliases, loaded once at startup") is not part of the source tree; this is
the repository's own sample vocabulary (`tests/conftest.py`,
`sample_test_mappings`), which instantiates exactly the spec's data model and
the spec's RBC/RDW scenario. -/
def sampleMappings : Mappings :=
  [("hemoglobin",
    ⟨"Hemoglobin", "718-7", "Hematology", "g/dL", ["hb", "hgb", "haemoglobin"]⟩),
   ("white_blood_cells",
    ⟨"White Blood Cell Count", "6690-2", "Hematology", "/uL",
     ["wbc", "wbc count", "leukocytes"]⟩),
   ("red_blood_cells",
    ⟨"Red Blood Cell Count", "789-8", "Hematology", "million/uL",
     ["rbc", "rbc count", "erythrocytes"]⟩),
   ("rdw",
    ⟨"Red Cell Distribution Width", "788-0", "Hematology", "%", ["rdw", "rdw-cv"]⟩),
   ("creatinine",
    ⟨"Creatinine", "2160-0", "Renal Panel", "mg/dL", ["creatinine", "creat"]⟩)]

/-- `_build_whitelist` (strict_normalizer.py lines 131-144): lowercase
key/canonical-name/alias → canonical key, in insertion order. -/
def buildWhitelist (m : Mappings) : List (String × String) :=
  (m : List (String × TestMapping)).foldl
    (fun wl kv =>
      let (k, tm) := kv
      let wl := dictInsert wl (pyLower k) k
      let wl := dictInsert wl (pyLower tm.canonical_name) k
      tm.aliases.foldl (fun wl a => dictInsert wl (pyLower a) k) wl)
    []

/-- `_build_panel_whitelists` (strict_normalizer.py lines 146-157): for each
panel, the definition keys present in the vocabulary. -/
def buildPanelWhitelists (m : Mappings) : List (String × List String) :=
  panelDefinitions.map (fun pd => (pd.1, pd.2.filter (fun k => (mappingsGet m k).isSome)))

/-- Lookup of a panel's whitelist. -/
def lookupPanel (pw : List (String × List String)) (p : String) : Option (List String) :=
  (pw.find? (fun q => q.1 = p)).map Prod.snd

/-- The normalizer's startup state (`__init__`: mappings, whitelist, panel
whitelists). -/
structure NormalizerState where
  mappings : Mappings
  whitelist : List (String × String)
  panelWhitelists : List (String × List String)

/-- Build the state from a vocabulary. -/
def NormalizerState.ofMappings (m : Mappings) : NormalizerState :=
  ⟨m, buildWhitelist m, buildPanelWhitelists m⟩

/-- One inner step of the Levenshtein dynamic program: compute the tail of the
current row given the previous row (from index `j`), the value just written
(`current_row[j]`) and the remaining characters of `s2`. -/
def levStep (c1 : Char) : List ℕ → ℕ → List Char → List ℕ
  | _, _, [] => []
  | [], _, _ :: _ => []
  | pj :: rest, last, c2 :: s2rest =>
    let pj1 := rest.headD 0
    let cur := min (min (pj1 + 1) (last + 1)) (pj + (if c1 = c2 then 0 else 1))
    cur :: levStep c1 rest cur s2rest

/-- The row loop of `_levenshtein`, threading the previous row over `s1`. -/
def levLoop (s2 : List Char) : List Char → ℕ → List ℕ → List ℕ
  | [], _, prev => prev
  | c1 :: rest, i, prev =>
    let row := (i + 1) :: levStep c1 prev (i + 1) s2
    levLoop s2 rest (i + 1) row

/-- The DP body of `_levenshtein` after the length swap. -/
def levenshteinGo (s1 s2 : List Char) : ℕ :=
  if s2.isEmpty then s1.length
  else (levLoop s2 s1 0 (List.range (s2.length + 1))).getLastD 0

/-- `_levenshtein` (strict_normalizer.py lines 165-183). -/
def levenshtein (s1 s2 : String) : ℕ :=
  let l1 := s1.toList
  let l2 := s2.toList
  if l1.length < l2.length then levenshteinGo l2 l1 else levenshteinGo l1 l2

/-- One whitelist item of the fuzzy search of `_map_test_name` (lines 392-407):
skip panel-excluded keys and aliases shorter than 3 characters, keep the first
strictly better distance. -/
def fuzzyStep (skipKey : String → Bool) (nClean : String)
    (acc : Option String × ℕ) (av : String × String) : Option String × ℕ :=
  if skipKey av.2 then acc
  else if av.1.length < 3 then acc
  else if levenshtein nClean av.1 < acc.2 then (some av.2, levenshtein nClean av.1) else acc

/-- The fuzzy-search fold of `_map_test_name` (lines 389-407): running
`(best_key, best_score)` over the whitelist items, starting from
`(None, 999)`. -/
def fuzzyFold (skipKey : String → Bool) (nClean : String)
    (wl : List (String × String)) : Option String × ℕ :=
  wl.foldl (fuzzyStep skipKey nClean) (none, 999)

/-- The length-scaled fuzzy acceptance budget (line 410). -/
def fuzzyBudget (nClean : String) : ℕ := if nClean.length < 6 then 2 else 3

/-- The skip predicate the fuzzy and alias stages use once a panel with
whitelist `aks` was detected (an empty set is falsy in Python, disabling the
restriction). -/
def panelSkip (aks : List String) : String → Bool :=
  fun k => !aks.isEmpty && !aks.contains k

/-- `_llm_panel_match` (strict_normalizer.py lines 422-461).  The network call
is an oracle `raw name → panel → response text`; the code validates the reply
against the panel's candidate keys and canonical names, returning a key or
nothing (a transport exception behaves like a "NONE" reply). -/
def llmPanelMatch (st : NormalizerState) (oracle : String → String → String)
    (rawName panel : String) : Option String :=
  let allowedKeys := (lookupPanel st.panelWhitelists panel).getD []
  if allowedKeys.isEmpty then none
  else
    let pick := pyLower (pyStrip (oracle rawName panel))
    if pick = "none" ∨ pick = "" then none
    else
      allowedKeys.findSome? (fun k =>
        let canonical :=
          pyLower (match mappingsGet st.mappings k with
                   | some tm => tm.canonical_name
                   | none => k)
        if pick = k ∨ pick = canonical then some k else none)

/-- The exact-match stage of `_map_test_name` (lines 371-379): a whitelist hit
is accepted when no panel scopes the search (`allowed_keys is None`) or the key
is in the panel set. -/
def exactStage (st : NormalizerState) (allowed : Option (List String)) (s : String) :
    Option String :=
  match dictGet st.whitelist s with
  | some k =>
    if (match allowed with | none => true | some aks => aks.contains k) then some k else none
  | none => none

/-- The skip predicate of the alias and fuzzy stages
(`allowed_keys and key not in allowed_keys`: an empty set is falsy, disabling
the restriction). -/
def skipOf (allowed : Option (List String)) : String → Bool :=
  fun k =>
    match allowed with
    | none => false
    | some aks => panelSkip aks k

/-- The identical-string alias stage of `_map_test_name` (lines 381-386). -/
def aliasStage (st : NormalizerState) (allowed : Option (List String))
    (normalized nClean : String) : Option String :=
  st.whitelist.findSome? (fun av =>
    if skipOf allowed av.2 then none
    else if normalized = av.1 ∨ nClean = av.1 then some av.2
    else none)

/-- The panel scope of `_map_test_name` (lines 366-368): the detected panel's
whitelist, when one was detected and the panel is in the table. -/
def mapAllowed (st : NormalizerState) (detectedPanel : Option String) :
    Option (List String) :=
  match detectedPanel with
  | some p => lookupPanel st.panelWhitelists p
  | none => none

/-- `_map_test_name` (strict_normalizer.py lines 342-420): exact match (raw then
cleaned), identical-string alias match, panel-scoped Levenshtein match with the
length-scaled budget, then the panel-scoped LLM fallback. -/
def mapTestName (st : NormalizerState) (oracle : String → String → String)
    (rawName : String) (detectedPanel : Option String) : Option String × String :=
  let normalized := pyStrip (pyLower rawName)
  let nClean := cleanName normalized
  let allowed : Option (List String) := mapAllowed st detectedPanel
  match exactStage st allowed normalized with
  | some k => (some k, "exact")
  | none =>
  match exactStage st allowed nClean with
  | some k => (some k, "exact")
  | none =>
  match aliasStage st allowed normalized nClean with
  | some k => (some k, "alias")
  | none =>
  let best := fuzzyFold (skipOf allowed) nClean st.whitelist
  if best.1.isSome ∧ best.2 ≤ fuzzyBudget nClean then (best.1, "fuzzy")
  else
    match detectedPanel with
    | some p =>
      match llmPanelMatch st oracle rawName p with
      | some k => (some k, "llm")
      | none => (none, "unknown")
    | none => (none, "unknown")

/-- The needs-review seed derived from the mapping method (strict_normalizer.py
lines 270-278). -/
def initialReview (method : String) : Bool × String :=
  if method = "llm" then (true, "Mapped via LLM")
  else if method = "fuzzy" then (true, "Fuzzy match - verify")
  else (false, "")

/-- The value-versus-reference-range check (strict_normalizer.py lines 280-285):
it only fires when the value and BOTH range bounds were parsed. -/
def rangeReview (valueNumeric refLow refHigh : Option ℚ) (review0 : Bool × String) :
    Bool × String :=
  match valueNumeric, refLow, refHigh with
  | some v, some lo, some hi =>
    if v < lo ∨ hi < v then
      if review0.1 = false then (true, "Value outside reference range") else review0
    else review0
  | _, _, _ => review0

/-- A raw table row as a Python dict; `none` models an absent key. -/
structure RawRow where
  test_name : Option String := none
  test_raw : Option String := none
  value : Option String := none
  value_raw : Option String := none
  reference_range : Option String := none
  ref_raw : Option String := none
  flag : Option String := none
  flag_raw : Option String := none
  unit : Option String := none
  unit_raw : Option String := none
deriving Repr, DecidableEq

/-- `row.get(a, row.get(b, ''))`. -/
def pyGet2 (a b : Option String) : String := a.getD (b.getD "")

/-- `NormalizerResult` dataclass. -/
structure NormalizerResult where
  success : Bool
  results : List NormalizedResult
  unknown_tests : List String
  issues : List String
deriving Repr, DecidableEq

/-- One iteration of the `normalize` row loop (strict_normalizer.py lines
218-302): `none` when the row is skipped, otherwise the emitted result paired
with the raw name when it goes to the unknown list. -/
def processRow (st : NormalizerState) (oracle : String → String → String)
    (row : RawRow) : Option (NormalizedResult × Option String) :=
  let testRaw := pyStrip (pyGet2 row.test_name row.test_raw)
  if testRaw = "" then none
  else if isNonTestText testRaw then none
  else
    let detectedPanel := detectPanel testRaw
    let mapped := mapTestName st oracle testRaw detectedPanel
    let valueRaw := pyGet2 row.value row.value_raw
    let parsed := parseValue valueRaw
    let refRaw := pyGet2 row.reference_range row.ref_raw
    let refs := parseReferenceRange refRaw
    let flag := normalizeFlag (pyGet2 row.flag row.flag_raw) valueRaw
    match mapped.1 with
    | none =>
      some
        ({ test_name := "UNKNOWN"
           original_name := testRaw
           value := parsed.1
           value_numeric := parsed.2
           unit := pyGet2 row.unit row.unit_raw
           reference_range := refRaw
           ref_low := refs.1
           ref_high := refs.2
           flag := flag
           needs_review := true
           review_reason := "Unmapped: " ++ testRaw
           mapping_method := "unknown" },
         some testRaw)
    | some key =>
      let mapping := mappingsGet st.mappings key
      let review : Bool × String := rangeReview parsed.2 refs.1 refs.2 (initialReview mapped.2)
      let rowUnit := pyGet2 row.unit row.unit_raw
      some
        ({ test_name := (mapping.map TestMapping.canonical_name).getD key
           original_name := testRaw
           value := parsed.1
           value_numeric := parsed.2
           unit := if rowUnit ≠ "" then rowUnit else (mapping.map TestMapping.unit).getD ""
           reference_range := refRaw
           ref_low := refs.1
           ref_high := refs.2
           flag := flag
           loinc_code := (mapping.map TestMapping.loinc_code).getD ""
           category := (mapping.map TestMapping.category).getD ""
           needs_review := review.1
           review_reason := review.2
           mapping_method := mapped.2 },
         none)

/-- `normalize` (strict_normalizer.py lines 212-309). -/
def normalize (st : NormalizerState) (oracle : String → String → String)
    (rows : List RawRow) : NormalizerResult :=
  let processed := rows.filterMap (processRow st oracle)
  { success := !(processed.map Prod.fst).isEmpty
    results := processed.map Prod.fst
    unknown_tests := processed.filterMap Prod.snd
    issues := [] }

/-! ## Theorems for the claims -/

/-- Claim C1: the spec requires both a blocking and a non-blocking acquire
variant, and the claim states that the batch path's awaited
`rate_limiter.acquire_async()` resolves to an existing operation.  In the code
the class defines only the blocking `acquire` (the `acquire_async` body is
commented out "for future use"), while `BatchProcessor._process_single_image`
still awaits `acquire_async` before each of its two vision passes, so that call
raises `AttributeError` at runtime. -/
theorem C1_acquire_async_is_missing :
    "acquire_async" ∈ batchProcessorRateLimiterCalls ∧
    "acquire_async" ∉ adaptiveRateLimiterMethods ∧
    "acquire" ∈ adaptiveRateLimiterMethods := by
  decide

/-- Truncating a nonnegative product by a factor at most one stays below the
original natural number. -/
theorem pyInt_nat_mul_le (n : ℕ) (f : ℚ) (hf0 : 0 ≤ f) (hf1 : f ≤ 1) :
    (pyInt ((n : ℚ) * f)).toNat ≤ n := by
  have h0 : 0 ≤ (n : ℚ) * f := mul_nonneg (by positivity) hf0
  unfold pyInt
  rw [if_pos h0]
  have hle : (n : ℚ) * f ≤ (n : ℚ) := by
    calc (n : ℚ) * f ≤ (n : ℚ) * 1 := by gcongr
    _ = (n : ℚ) := mul_one _
  have hfl : ⌊(n : ℚ) * f⌋ ≤ (n : ℤ) := by
    have := Int.floor_le_floor hle
    simpa using this
  omega

/-- Dividing a natural number by a positive factor at most one does not shrink
it, even after truncation. -/
theorem le_pyInt_nat_div (n : ℕ) (f : ℚ) (hf0 : 0 < f) (hf1 : f ≤ 1) :
    n ≤ (pyInt ((n : ℚ) / f)).toNat := by
  have hq : (n : ℚ) ≤ (n : ℚ) / f := by
    rw [le_div_iff₀ hf0]
    calc (n : ℚ) * f ≤ (n : ℚ) * 1 := by gcongr
    _ = (n : ℚ) := mul_one _
  have h0 : 0 ≤ (n : ℚ) / f := le_trans (by positivity) hq
  unfold pyInt
  rw [if_pos h0]
  have hfl : (n : ℤ) ≤ ⌊(n : ℚ) / f⌋ := Int.le_floor.mpr (by exact_mod_cast hq)
  omega

/-- The invariant of claim C5: the effective RPM lies between the configured
floor and ceiling. -/
def RpmInv (st : RateLimiterState) : Prop :=
  st.config.min_requests_per_minute ≤ st.effective_rpm ∧
  st.effective_rpm ≤ st.config.requests_per_minute

/-- The state `_wait_time` hands back is the cleaned state. -/
theorem waitTime_snd (st : RateLimiterState) (now : ℚ) :
    (st.waitTime now).2 = st.cleanOldRequests now := by
  simp only [RateLimiterState.waitTime]
  split
  · rfl
  · split <;> rfl

/-- `acquire` does not touch the effective RPM. -/
theorem acquire_rpm (st : RateLimiterState) (now : ℚ) :
    (st.acquire now).effective_rpm = st.effective_rpm := by
  simp only [RateLimiterState.acquire, waitTime_snd]
  split <;> rfl

/-- `acquire` does not touch the configuration. -/
theorem acquire_config (st : RateLimiterState) (now : ℚ) :
    (st.acquire now).config = st.config := by
  simp only [RateLimiterState.acquire, waitTime_snd]
  split <;> rfl

/-- Every operation preserves the configuration. -/
theorem step_config (st : RateLimiterState) (op : RateLimiterOp) :
    (st.step op).config = st.config := by
  cases op with
  | acquireAt now => exact acquire_config st now
  | reportSuccess =>
    show st.reportSuccess.config = st.config
    simp only [RateLimiterState.reportSuccess]
    split
    · rfl
    · split <;> rfl
  | reportRateLimitError =>
    show st.reportRateLimitError.config = st.config
    simp only [RateLimiterState.reportRateLimitError]
    split <;> rfl
  | reset => rfl

/-- `report_rate_limit_error` keeps the RPM inside the configured bounds. -/
theorem reportError_inv (st : RateLimiterState)
    (hmm : st.config.min_requests_per_minute ≤ st.config.requests_per_minute)
    (hf0 : 0 ≤ st.config.backoff_factor) (hf1 : st.config.backoff_factor ≤ 1)
    (h : RpmInv st) : RpmInv st.reportRateLimitError := by
  simp only [RateLimiterState.reportRateLimitError]
  split
  · exact h
  refine ⟨le_max_right _ _, ?_⟩
  apply max_le _ hmm
  exact le_trans (pyInt_nat_mul_le st.effective_rpm _ hf0 hf1) h.2

/-- `report_success` keeps the RPM inside the configured bounds. -/
theorem reportSuccess_inv (st : RateLimiterState)
    (hmm : st.config.min_requests_per_minute ≤ st.config.requests_per_minute)
    (hf0 : 0 < st.config.backoff_factor) (hf1 : st.config.backoff_factor ≤ 1)
    (h : RpmInv st) : RpmInv st.reportSuccess := by
  simp only [RateLimiterState.reportSuccess]
  split
  · exact h
  split
  · refine ⟨le_min (le_trans h.1 (le_pyInt_nat_div _ _ hf0 hf1)) hmm, min_le_right _ _⟩
  · exact h

/-- `report_success` never decreases the RPM (recovery moves toward the
ceiling). -/
theorem reportSuccess_mono (st : RateLimiterState)
    (hf0 : 0 < st.config.backoff_factor) (hf1 : st.config.backoff_factor ≤ 1) :
    st.effective_rpm ≤ st.reportSuccess.effective_rpm := by
  simp only [RateLimiterState.reportSuccess]
  split
  · exact le_refl _
  split
  case isTrue hcond =>
    exact le_min (le_pyInt_nat_div _ _ hf0 hf1) (Nat.le_of_lt hcond.2)
  · exact le_refl _

/-- One operation preserves the RPM invariant. -/
theorem step_inv (st : RateLimiterState) (op : RateLimiterOp)
    (hmm : st.config.min_requests_per_minute ≤ st.config.requests_per_minute)
    (hf0 : 0 < st.config.backoff_factor) (hf1 : st.config.backoff_factor ≤ 1)
    (h : RpmInv st) : RpmInv (st.step op) := by
  cases op
  case acquireAt now =>
    show RpmInv (st.acquire now)
    unfold RpmInv
    rw [acquire_rpm, acquire_config]
    exact h
  case reportSuccess => exact reportSuccess_inv st hmm hf0 hf1 h
  case reportRateLimitError => exact reportError_inv st hmm (le_of_lt hf0) hf1 h
  case reset => exact ⟨hmm, le_refl _⟩

/-- A whole run preserves configuration. -/
theorem run_config (ops : List RateLimiterOp) : ∀ st : RateLimiterState,
    (st.run ops).config = st.config := by
  induction ops with
  | nil => intro st; rfl
  | cons op rest ih =>
    intro st
    show ((st.step op).run rest).config = st.config
    rw [ih (st.step op), step_config]

/-- A whole run preserves the RPM invariant. -/
theorem run_inv (ops : List RateLimiterOp) : ∀ st : RateLimiterState,
    st.config.min_requests_per_minute ≤ st.config.requests_per_minute →
    0 < st.config.backoff_factor → st.config.backoff_factor ≤ 1 →
    RpmInv st → RpmInv (st.run ops) := by
  induction ops with
  | nil => intro st _ _ _ h; exact h
  | cons op rest ih =>
    intro st hmm hf0 hf1 h
    show RpmInv ((st.step op).run rest)
    refine ih (st.step op) ?_ ?_ ?_ (step_inv st op hmm hf0 hf1 h)
    · rw [step_config]; exact hmm
    · rw [step_config]; exact hf0
    · rw [step_config]; exact hf1

/-- Claim C5: starting from a freshly constructed limiter whose configured
minimum is at most the configured maximum (the backoff factor being a genuine
backoff, `0 < factor ≤ 1`, as the source default `0.8` is — `get_rate_limiter`
never overrides it), any call sequence keeps the effective RPM between the
configured floor and ceiling, and a recovery step never decreases the RPM nor
pushes it past the ceiling. -/
theorem C5_effective_rpm_bounded (c : RateLimitConfig) (ops : List RateLimiterOp)
    (hmm : c.min_requests_per_minute ≤ c.requests_per_minute)
    (hf0 : 0 < c.backoff_factor) (hf1 : c.backoff_factor ≤ 1) :
    (c.min_requests_per_minute ≤ ((RateLimiterState.init c).run ops).effective_rpm ∧
      ((RateLimiterState.init c).run ops).effective_rpm ≤ c.requests_per_minute) ∧
    ((RateLimiterState.init c).run ops).effective_rpm ≤
      (((RateLimiterState.init c).run ops).reportSuccess).effective_rpm ∧
    (((RateLimiterState.init c).run ops).reportSuccess).effective_rpm ≤
      c.requests_per_minute := by
  have hc : ((RateLimiterState.init c).run ops).config = c := run_config ops _
  have hinv : RpmInv ((RateLimiterState.init c).run ops) :=
    run_inv ops _ hmm hf0 hf1 ⟨hmm, le_refl _⟩
  have hs : RpmInv (((RateLimiterState.init c).run ops).reportSuccess) :=
    reportSuccess_inv _ (by rw [hc]; exact hmm) (by rw [hc]; exact hf0)
      (by rw [hc]; exact hf1) hinv
  have hsc : (((RateLimiterState.init c).run ops).reportSuccess).config = c := by
    have := step_config ((RateLimiterState.init c).run ops) RateLimiterOp.reportSuccess
    simpa [RateLimiterState.step, hc] using this
  refine ⟨⟨?_, ?_⟩, ?_, ?_⟩
  · have := hinv.1; rwa [hc] at this
  · have := hinv.2; rwa [hc] at this
  · exact reportSuccess_mono _ (by rw [hc]; exact hf0) (by rw [hc]; exact hf1)
  · have := hs.2; rwa [hsc] at this

/-- Witness for C5: the default configuration, one backoff and one recovery
burst. -/
theorem C5_witness :
    ((5 : ℕ) ≤ ((RateLimiterState.init {}).run
        [RateLimiterOp.reportRateLimitError, RateLimiterOp.acquireAt 0,
         RateLimiterOp.reportSuccess, RateLimiterOp.reset]).effective_rpm ∧
      ((RateLimiterState.init {}).run
        [RateLimiterOp.reportRateLimitError, RateLimiterOp.acquireAt 0,
         RateLimiterOp.reportSuccess, RateLimiterOp.reset]).effective_rpm ≤ 15) ∧
    ((RateLimiterState.init {}).run
        [RateLimiterOp.reportRateLimitError, RateLimiterOp.acquireAt 0,
         RateLimiterOp.reportSuccess, RateLimiterOp.reset]).effective_rpm ≤
      (((RateLimiterState.init {}).run
        [RateLimiterOp.reportRateLimitError, RateLimiterOp.acquireAt 0,
         RateLimiterOp.reportSuccess, RateLimiterOp.reset]).reportSuccess).effective_rpm ∧
    (((RateLimiterState.init {}).run
        [RateLimiterOp.reportRateLimitError, RateLimiterOp.acquireAt 0,
         RateLimiterOp.reportSuccess, RateLimiterOp.reset]).reportSuccess).effective_rpm ≤ 15 :=
  C5_effective_rpm_bounded {} _ (by norm_num) (by norm_num) (by norm_num)

/-- Membership in a conditional singleton. -/
theorem mem_optIf {c : Prop} [Decidable c] {s t : String} :
    s ∈ optIf c t ↔ c ∧ s = t := by
  unfold optIf
  split <;> simp_all

/-- The blur severity is one of its three literals. -/
theorem blurSeverity_cases (m : OcrMetrics) :
    blurSeverity m = "extremely blurry" ∨ blurSeverity m = "very blurry" ∨
      blurSeverity m = "slightly blurry" := by
  unfold blurSeverity
  split
  · exact Or.inl rfl
  split
  · exact Or.inr (Or.inl rfl)
  · exact Or.inr (Or.inr rfl)

/-- No issue produced by the metric checks contains the text "noisy scan". -/
theorem collectIssues_no_noisy (m : OcrMetrics) :
    issuesHaveNoisyScan (collectIssues m) = false := by
  unfold issuesHaveNoisyScan
  rw [List.any_eq_false]
  intro s hs
  simp only [collectIssues, List.mem_append, mem_optIf] at hs
  rcases hs with ((((((((((⟨-, rfl⟩ | ⟨-, rfl⟩) | ⟨-, rfl⟩) | ⟨-, rfl⟩) | ⟨-, rfl⟩) |
    ⟨-, rfl⟩) | ⟨-, rfl⟩) | ⟨-, rfl⟩) | ⟨-, rfl⟩) | ⟨-, rfl⟩) | ⟨-, rfl⟩) | ⟨-, rfl⟩
  all_goals
    first
      | decide
      | (rcases blurSeverity_cases m with h | h | h <;> rw [h] <;> decide)

/-- The blur guard never introduces "noisy scan" text: its critical messages do
not contain it. -/
theorem guardBlur_no_noisy (m : OcrMetrics) (acc : Bool) (issues : List String)
    (h : issuesHaveNoisyScan issues = false) :
    issuesHaveNoisyScan (guardBlur m acc issues).2 = false := by
  unfold guardBlur
  split
  · split
    · exact h
    · simpa [issuesHaveNoisyScan] using And.intro (by decide :
        strContains (pyLower criticalBlurIssue) "noisy scan" = false)
        (by simpa [issuesHaveNoisyScan] using h)
  split
  · split
    · exact h
    · simpa [issuesHaveNoisyScan] using And.intro (by decide :
        strContains (pyLower criticalBlurClarityIssue) "noisy scan" = false)
        (by simpa [issuesHaveNoisyScan] using h)
  · exact h

/-- When the noisy-scan signature holds and no issue mentions it yet, the guard
rejects and inserts the critical issue. -/
theorem guardNoisy_fires (m : OcrMetrics) (acc : Bool) (issues : List String)
    (hc : 85 < m.contrast) (hcl : m.text_clarity < 45/100)
    (h : issuesHaveNoisyScan issues = false) :
    guardNoisy m acc issues = (false, noisyScanIssue :: issues) := by
  unfold guardNoisy
  rw [if_pos ⟨hc, hcl⟩, if_neg (by simp [h])]

/-- The clarity guard keeps a rejection. -/
theorem guardClarity_keeps_false (m : OcrMetrics) (issues : List String) :
    (guardClarity m false issues).1 = false := by
  unfold guardClarity
  split <;> rfl

/-- The clarity guard only prepends, so membership survives it. -/
theorem guardClarity_mem (m : OcrMetrics) (acc : Bool) (issues : List String)
    (s : String) (h : s ∈ issues) : s ∈ (guardClarity m acc issues).2 := by
  unfold guardClarity
  split
  · split
    · exact h
    · exact List.mem_cons_of_mem _ h
  · exact h

/-- Claim C8: with measured contrast 90 and text clarity 0.3 the quality gate
rejects the image through the noisy-scan guard (whatever the other metrics and
the composite score), inserting the noisy-scan critical issue; and the composite
score is always clamped into [0, 1]. -/
theorem C8_noisy_scan_rejected_and_score_bounded :
    (∀ m : OcrMetrics, m.contrast = 90 → m.text_clarity = 3/10 →
      (evaluateOcrQuality m).is_acceptable = false ∧
        noisyScanIssue ∈ (evaluateOcrQuality m).issues) ∧
    (∀ m : OcrMetrics,
      0 ≤ (evaluateOcrQuality m).quality_score ∧ (evaluateOcrQuality m).quality_score ≤ 1) := by
  constructor
  · intro m h90 h03
    have hb : issuesHaveNoisyScan (guardBlur m (baseAcceptable m) (collectIssues m)).2 = false :=
      guardBlur_no_noisy m _ _ (collectIssues_no_noisy m)
    have h2 : guardNoisy m (guardBlur m (baseAcceptable m) (collectIssues m)).1
        (guardBlur m (baseAcceptable m) (collectIssues m)).2 =
        (false, noisyScanIssue :: (guardBlur m (baseAcceptable m) (collectIssues m)).2) :=
      guardNoisy_fires m _ _ (by rw [h90]; norm_num) (by rw [h03]; norm_num) hb
    have hacc : (evaluateOcrQuality m).is_acceptable =
        (guardClarity m (guardNoisy m (guardBlur m (baseAcceptable m) (collectIssues m)).1
          (guardBlur m (baseAcceptable m) (collectIssues m)).2).1
          (guardNoisy m (guardBlur m (baseAcceptable m) (collectIssues m)).1
            (guardBlur m (baseAcceptable m) (collectIssues m)).2).2).1 := rfl
    have hiss : (evaluateOcrQuality m).issues =
        (guardClarity m (guardNoisy m (guardBlur m (baseAcceptable m) (collectIssues m)).1
          (guardBlur m (baseAcceptable m) (collectIssues m)).2).1
          (guardNoisy m (guardBlur m (baseAcceptable m) (collectIssues m)).1
            (guardBlur m (baseAcceptable m) (collectIssues m)).2).2).2 := rfl
    constructor
    · rw [hacc, h2]
      exact guardClarity_keeps_false m _
    · rw [hiss, h2]
      exact guardClarity_mem m _ _ _ (List.mem_cons_self _ _)
  · intro m
    unfold evaluateOcrQuality calculateQualityScore
    exact ⟨le_max_left _ _, max_le (by norm_num) (min_le_left _ _)⟩

/-- Witness for C8 at a concrete metric vector (contrast 90, clarity 0.3). -/
theorem C8_witness :
    (evaluateOcrQuality
      { width := 800, height := 600, blur_score := 120, text_clarity := 3/10,
        contrast := 90, brightness := 150, text_density := 5/100, skew_angle := 0,
        noise_level := 5/100, uniform_ratio := 1/10 }).is_acceptable = false ∧
    noisyScanIssue ∈ (evaluateOcrQuality
      { width := 800, height := 600, blur_score := 120, text_clarity := 3/10,
        contrast := 90, brightness := 150, text_density := 5/100, skew_angle := 0,
        noise_level := 5/100, uniform_ratio := 1/10 }).issues ∧
    0 ≤ (evaluateOcrQuality
      { width := 800, height := 600, blur_score := 120, text_clarity := 3/10,
        contrast := 90, brightness := 150, text_density := 5/100, skew_angle := 0,
        noise_level := 5/100, uniform_ratio := 1/10 }).quality_score := by
  refine ⟨(C8_noisy_scan_rejected_and_score_bounded.1 _ rfl rfl).1,
    (C8_noisy_scan_rejected_and_score_bounded.1 _ rfl rfl).2,
    (C8_noisy_scan_rejected_and_score_bounded.2 _).1⟩

/-- Updating a store key makes it readable. -/
theorem storeGet_storeSet (store : List (String × Val)) (k : String) (v : Val) :
    storeGet (storeSet store k v) k = some v := by
  induction store with
  | nil => simp [storeSet, storeGet]
  | cons kv rest ih =>
    unfold storeSet
    split
    case isTrue h => simp [storeGet, h]
    case isFalse h => simpa [storeGet, h] using ih

/-- `cache_result` does not change the configuration. -/
theorem cacheResult_config (cm : CacheManager) (k : String) (p : Val) (t : String)
    (meta : Option Val) : (cm.cacheResult k p t meta).config = cm.config := by
  simp only [CacheManager.cacheResult]
  split <;> split <;> rfl

/-- `cache_result` does not change the Redis-client flag. -/
theorem cacheResult_hasRedis (cm : CacheManager) (k : String) (p : Val) (t : String)
    (meta : Option Val) : (cm.cacheResult k p t meta).hasRedisClient = cm.hasRedisClient := by
  simp only [CacheManager.cacheResult]
  split <;> split <;> rfl

/-- With Redis enabled and attached, `cache_result` leaves the wrapper entry
readable in Tier 1. -/
theorem cacheResult_redis_readback (cm : CacheManager) (k : String) (p : Val) (t : String)
    (meta : Option Val) (h1 : cm.config.redis_enabled = true) (h2 : cm.hasRedisClient = true) :
    (cm.cacheResult k p t meta).getFromRedis k = some (mkCacheEntry p t meta) := by
  have hcond : cm.config.redis_enabled = true ∧ cm.hasRedisClient = true := ⟨h1, h2⟩
  simp only [CacheManager.cacheResult]
  rw [if_pos hcond]
  split <;>
    simp [CacheManager.getFromRedis, CacheManager.setToDisk, CacheManager.setToRedis,
      storeGet_storeSet]

/-- The wrapper entry is truthy (it always has three fields). -/
theorem mkCacheEntry_truthy (p : Val) (t : String) (meta : Option Val) :
    (mkCacheEntry p t meta).truthy = true := rfl

/-- The Tier-1 step does not change the stores or the configuration. -/
theorem redisLookupStep_stable (cm : CacheManager) (k : String) :
    (cm.redisLookupStep k).2.config = cm.config ∧
    (cm.redisLookupStep k).2.hasRedisClient = cm.hasRedisClient ∧
    (cm.redisLookupStep k).2.redisStore = cm.redisStore ∧
    (cm.redisLookupStep k).2.diskStore = cm.diskStore := by
  unfold CacheManager.redisLookupStep
  split
  · split <;> exact ⟨rfl, rfl, rfl, rfl⟩
  · exact ⟨rfl, rfl, rfl, rfl⟩

/-- With Redis live, the Tier-1 step returns exactly the truthy Redis hit. -/
theorem redisLookupStep_fst (cm : CacheManager) (k : String)
    (h1 : cm.config.redis_enabled = true) (h2 : cm.hasRedisClient = true) :
    (cm.redisLookupStep k).1 = truthyHit (cm.getFromRedis k) := by
  unfold CacheManager.redisLookupStep
  rw [if_pos ⟨h1, h2⟩]
  split <;> simp_all

/-- Claim C4 (amended): `cache_result` then `get_cached_result` round-trips the
cache entry (whose "result" field is the identical payload), the read checks
Tier 1 first, then Tier 2, promotes a Tier-2 hit into Tier 1, and signals
not-cached only on a double miss. -/
theorem C4_roundtrip_two_tier :
    (∀ (cm : CacheManager) (key : String) (p : Val) (t : String) (meta : Option Val),
      cm.config.redis_enabled = true → cm.hasRedisClient = true →
      cm.config.disk_enabled = true →
      ((cm.cacheResult key p t meta).getCachedResult key).1 = some (mkCacheEntry p t meta) ∧
      objField (mkCacheEntry p t meta) "result" = some p) ∧
    (∀ (cm : CacheManager) (key : String) (v : Val),
      cm.config.redis_enabled = true → cm.hasRedisClient = true →
      truthyHit (cm.getFromRedis key) = some v →
      (cm.getCachedResult key).1 = some v) ∧
    (∀ (cm : CacheManager) (key : String) (v : Val),
      cm.config.redis_enabled = true → cm.hasRedisClient = true →
      cm.config.disk_enabled = true →
      truthyHit (cm.getFromRedis key) = none → truthyHit (cm.getFromDisk key) = some v →
      (cm.getCachedResult key).1 = some v ∧
      ((cm.getCachedResult key).2).getFromRedis key = some v) ∧
    (∀ (cm : CacheManager) (key : String),
      cm.config.redis_enabled = true → cm.hasRedisClient = true →
      cm.config.disk_enabled = true →
      truthyHit (cm.getFromRedis key) = none → truthyHit (cm.getFromDisk key) = none →
      (cm.getCachedResult key).1 = none) := by
  have tier1 : ∀ (cm : CacheManager) (key : String) (v : Val),
      cm.config.redis_enabled = true → cm.hasRedisClient = true →
      truthyHit (cm.getFromRedis key) = some v →
      (cm.getCachedResult key).1 = some v := by
    intro cm key v h1 h2 hhit
    simp only [CacheManager.getCachedResult]
    rw [redisLookupStep_fst cm key h1 h2, hhit]
  refine ⟨?_, tier1, ?_, ?_⟩
  · intro cm key p t meta h1 h2 _
    refine ⟨?_, rfl⟩
    apply tier1 _ _ _ (by rw [cacheResult_config]; exact h1)
      (by rw [cacheResult_hasRedis]; exact h2)
    rw [cacheResult_redis_readback cm key p t meta h1 h2]
    simp [truthyHit, mkCacheEntry_truthy]
  · intro cm key v h1 h2 h3 hmiss hdisk
    obtain ⟨hc, hr, hrs, hds⟩ := redisLookupStep_stable cm key
    simp only [CacheManager.getCachedResult]
    rw [redisLookupStep_fst cm key h1 h2, hmiss]
    rw [if_pos (show (cm.redisLookupStep key).2.config.disk_enabled = true by rw [hc]; exact h3)]
    have hdisk2 : truthyHit ((cm.redisLookupStep key).2.getFromDisk key) = some v := by
      unfold CacheManager.getFromDisk
      rw [hds]
      exact hdisk
    rw [hdisk2]
    have hcond : (cm.redisLookupStep key).2.config.redis_enabled = true ∧
        (cm.redisLookupStep key).2.hasRedisClient = true := by
      constructor
      · rw [hc]; exact h1
      · rw [hr]; exact h2
    dsimp only
    constructor
    · rfl
    · split
      case isTrue => simp [CacheManager.setToRedis, CacheManager.getFromRedis, storeGet_storeSet]
      case isFalse hns => exact absurd hcond hns
  · intro cm key h1 h2 h3 hmiss hdmiss
    obtain ⟨hc, hr, hrs, hds⟩ := redisLookupStep_stable cm key
    simp only [CacheManager.getCachedResult]
    rw [redisLookupStep_fst cm key h1 h2, hmiss]
    rw [if_pos (show (cm.redisLookupStep key).2.config.disk_enabled = true by rw [hc]; exact h3)]
    have hdisk2 : truthyHit ((cm.redisLookupStep key).2.getFromDisk key) = none := by
      unfold CacheManager.getFromDisk
      rw [hds]
      exact hdmiss
    rw [hdisk2]

/-- A fresh manager with both tiers enabled and a Redis client attached. -/
def cmBothTiers : CacheManager :=
  { config := {}, hasRedisClient := true, redisStore := [], diskStore := [], stats := {} }

/-- Counterexample to claim C4 as stated: writing the payload and reading it
back does NOT return the identical payload — `cache_result` wraps the payload
into an entry dict with `result`/`cached_at`/`metadata` fields and
`get_cached_result` returns that wrapper (callers unwrap with
`cached.get("result")`). -/
theorem C4_counterexample :
    ((cmBothTiers.cacheResult "hash0" (Val.vstr "payload") "2024-01-01T00:00:00"
        none).getCachedResult "hash0").1 ≠ some (Val.vstr "payload") := by
  intro hEq
  have h1 : ((cmBothTiers.cacheResult "hash0" (Val.vstr "payload") "2024-01-01T00:00:00"
      none).getCachedResult "hash0").1 =
      some (Val.vobj [("result", Val.vstr "payload"),
        ("cached_at", Val.vstr "2024-01-01T00:00:00"), ("metadata", Val.vobj [])]) := rfl
  rw [h1] at hEq
  simp at hEq

/-- Witness for C4 (amended) at a concrete manager, key and payload. -/
theorem C4_witness :
    ((cmBothTiers.cacheResult "hash0" (Val.vstr "payload") "2024-01-01T00:00:00"
        none).getCachedResult "hash0").1 =
      some (mkCacheEntry (Val.vstr "payload") "2024-01-01T00:00:00" none) ∧
    objField (mkCacheEntry (Val.vstr "payload") "2024-01-01T00:00:00" none) "result" =
      some (Val.vstr "payload") :=
  C4_roundtrip_two_tier.1 cmBothTiers "hash0" (Val.vstr "payload") "2024-01-01T00:00:00" none
    rfl rfl rfl

/-- Number of distinct name tokens shared by two (lower-cased, stripped) names. -/
def sharedTokenCount (n1 n2 : String) : ℕ :=
  ((pySplitWs n1).toFinset ∩ (pySplitWs n2).toFinset).card

/-- The similarity rule the code actually implements, spelled out: at least two
shared tokens, or at least one shared token when both names have at most two
distinct tokens. -/
def specSimilar (n1 n2 : String) : Prop :=
  2 ≤ sharedTokenCount n1 n2 ∨
  (1 ≤ sharedTokenCount n1 n2 ∧
    max (pySplitWs n1).toFinset.card (pySplitWs n2).toFinset.card ≤ 2)

/-- `_names_similar` agrees with the spelled-out rule. -/
theorem namesSimilar_iff (n1 n2 : String) :
    namesSimilar n1 n2 = true ↔ specSimilar n1 n2 := by
  unfold namesSimilar specSimilar sharedTokenCount
  simp

/-- The single-entry memory of the C9 counterexample. -/
def memJohn : List PatientMemoryEntry :=
  [⟨"doc1", some "John Smith", "P1", none, none, 0⟩]

/-- Counterexample to claim C9 as stated: "John Doe" shares only the single
token "john" with the remembered "John Smith" (and is not an exact match), yet
the scan reuses the remembered id "P1" instead of minting a fresh id, because
`_names_similar` also fires on one shared token when both names have at most
two words. -/
theorem C9_counterexample :
    matchPatientFromMemory memJohn (some "John Doe") none none = some "P1" ∧
    sharedTokenCount (pyStrip (pyLower "John Doe")) (pyStrip (pyLower "John Smith")) = 1 ∧
    pyStrip (pyLower "John Doe") ≠ pyStrip (pyLower "John Smith") := by
  decide

/-- Soundness of the memory scan: a returned id belongs to a remembered entry
with a truthy name that matches exactly, or is similar (per the implemented
rule) with compatible age and gender. -/
theorem scanPatientMemory_sound (nl : String) (age gender : Option String) :
    ∀ (l : List PatientMemoryEntry) (pid : String),
      scanPatientMemory nl age gender l = some pid →
      ∃ e ∈ l, e.patient_id = pid ∧ e.patient_name.getD "" ≠ "" ∧
        (nl = pyStrip (pyLower (e.patient_name.getD "")) ∨
         (specSimilar nl (pyStrip (pyLower (e.patient_name.getD ""))) ∧
          ageCompatible age e.age = true ∧ genderCompatible gender e.gender = true)) := by
  intro l
  induction l with
  | nil => intro pid h; exact absurd h (by simp [scanPatientMemory])
  | cons e rest ih =>
    intro pid h
    unfold scanPatientMemory at h
    rcases hen : e.patient_name with _ | en
    · rw [hen] at h
      obtain ⟨e', he', hrest⟩ := ih pid h
      exact ⟨e', List.mem_cons_of_mem _ he', hrest⟩
    · rw [hen] at h
      dsimp only at h
      by_cases hempty : en = ""
      · rw [if_pos hempty] at h
        obtain ⟨e', he', hrest⟩ := ih pid h
        exact ⟨e', List.mem_cons_of_mem _ he', hrest⟩
      rw [if_neg hempty] at h
      by_cases hexact : nl = pyStrip (pyLower en)
      · rw [if_pos hexact] at h
        refine ⟨e, List.mem_cons_self _ _, Option.some.inj h, ?_, ?_⟩
        · simp [hen, hempty]
        · left; simpa [hen] using hexact
      rw [if_neg hexact] at h
      by_cases hsim : namesSimilar nl (pyStrip (pyLower en)) ∧
          ageCompatible age e.age = true ∧ genderCompatible gender e.gender = true
      · rw [if_pos hsim] at h
        refine ⟨e, List.mem_cons_self _ _, Option.some.inj h, ?_, ?_⟩
        · simp [hen, hempty]
        · right
          refine ⟨?_, hsim.2.1, hsim.2.2⟩
          rw [hen]
          exact (namesSimilar_iff _ _).mp (by simpa using hsim.1)
      · rw [if_neg hsim] at h
        obtain ⟨e', he', hrest⟩ := ih pid h
        exact ⟨e', List.mem_cons_of_mem _ he', hrest⟩

/-- Claim C9 (amended): a declared patient id always wins; without one, the
ring is scanned most-recent-first and a match's id is reused, where a match is
an exact (case-insensitive) name equality, or a similar name — sharing at
least two tokens, OR sharing one token when both names have at most two — with
compatible age and gender; with no match a fresh `AUTO-` id is minted. -/
theorem C9_identity_resolution (mem : List PatientMemoryEntry) (info : PatientInfo)
    (docId freshId : String) (now : ℚ) :
    (pyTruthyStr info.patient_id = true →
      (processPatientIdentity mem info docId freshId now).1.patient_id = info.patient_id) ∧
    (pyTruthyStr info.patient_id = false →
      (processPatientIdentity mem info docId freshId now).1.patient_id =
        some ((matchPatientFromMemory mem info.name info.age info.gender).getD
          ("AUTO-" ++ freshId))) ∧
    (∀ pid, matchPatientFromMemory mem info.name info.age info.gender = some pid →
      ∃ e ∈ mem, e.patient_id = pid ∧ e.patient_name.getD "" ≠ "" ∧
        (pyStrip (pyLower (info.name.getD "")) = pyStrip (pyLower (e.patient_name.getD "")) ∨
         (specSimilar (pyStrip (pyLower (info.name.getD "")))
            (pyStrip (pyLower (e.patient_name.getD ""))) ∧
          ageCompatible info.age e.age = true ∧
          genderCompatible info.gender e.gender = true))) := by
  refine ⟨?_, ?_, ?_⟩
  · intro h
    unfold processPatientIdentity
    rw [if_pos h]
  · intro h
    unfold processPatientIdentity
    rw [if_neg (by simp [h])]
    rcases hm : matchPatientFromMemory mem info.name info.age info.gender with _ | mid
    · simp [hm]
    · simp [hm]
  · intro pid h
    unfold matchPatientFromMemory at h
    rcases hn : info.name with _ | n
    · rw [hn] at h; exact absurd h (by simp)
    rw [hn] at h
    dsimp only at h
    by_cases hne : n = ""
    · rw [if_pos hne] at h; exact absurd h (by simp)
    rw [if_neg hne] at h
    obtain ⟨e, he, hid, hname, hmatch⟩ :=
      scanPatientMemory_sound (pyStrip (pyLower n)) info.age info.gender mem.reverse pid h
    exact ⟨e, List.mem_reverse.mp he, hid, hname, by simpa [hn] using hmatch⟩

/-- The C9 witness info record: no declared id, a two-word name. -/
def infoJohnDoe : PatientInfo :=
  { name := some "John Doe", patient_id := none, age := none, gender := none }

/-- Witness for C9 (amended) at a concrete memory and document. -/
theorem C9_witness :
    (processPatientIdentity memJohn infoJohnDoe "doc2" "12AB34CD" 1).1.patient_id =
      some ((matchPatientFromMemory memJohn infoJohnDoe.name infoJohnDoe.age
        infoJohnDoe.gender).getD ("AUTO-" ++ "12AB34CD")) :=
  (C9_identity_resolution memJohn infoJohnDoe "doc2" "12AB34CD" 1).2.1 rfl

/-- The physiological-outlier update of `_validate_results` does not change the
deduplication key. -/
theorem applyPhysiologicalCheck_key (r : NormalizedResult) :
    resultKey (applyPhysiologicalCheck r) = resultKey r := by
  unfold applyPhysiologicalCheck
  split <;> rfl

/-- The key sequence produced by the validation loop is the first-occurrence
deduplication of the input key sequence. -/
theorem validateResultsGo_keys (rs : List NormalizedResult) :
    ∀ seen, (validateResultsGo seen rs).map resultKey =
      dedupKeysGo seen (rs.map resultKey) := by
  induction rs with
  | nil => intro seen; rfl
  | cons r rest ih =>
    intro seen
    unfold validateResultsGo dedupKeysGo
    simp only [List.map_cons]
    split
    case isTrue h => exact ih seen
    case isFalse h =>
      simp only [List.map_cons, applyPhysiologicalCheck_key]
      rw [ih (resultKey r :: seen)]

/-- First-occurrence deduplication yields keys that are pairwise distinct and
outside the seen set. -/
theorem dedupKeysGo_nodup (ks : List String) :
    ∀ seen, (dedupKeysGo seen ks).Nodup ∧ ∀ k ∈ dedupKeysGo seen ks, k ∉ seen := by
  induction ks with
  | nil => intro seen; exact ⟨List.nodup_nil, by simp [dedupKeysGo]⟩
  | cons k rest ih =>
    intro seen
    unfold dedupKeysGo
    split
    case isTrue h => exact ih seen
    case isFalse h =>
      obtain ⟨hnd, hout⟩ := ih (k :: seen)
      refine ⟨List.nodup_cons.mpr ⟨fun hmem => (hout k hmem) (List.mem_cons_self _ _), hnd⟩, ?_⟩
      intro k' hk'
      rcases List.mem_cons.mp hk' with rfl | hk'
      · exact h
      · intro hseen
        exact (hout k' hk') (List.mem_cons_of_mem _ hseen)

/-- Every kept row is a (possibly flag-updated) input row. -/
theorem validateResultsGo_mem (rs : List NormalizedResult) :
    ∀ seen r, r ∈ validateResultsGo seen rs →
      ∃ r0 ∈ rs, r = applyPhysiologicalCheck r0 := by
  induction rs with
  | nil => intro seen r h; exact absurd h (by simp [validateResultsGo])
  | cons r1 rest ih =>
    intro seen r h
    unfold validateResultsGo at h
    dsimp only at h
    split at h
    · obtain ⟨r0, hr0, heq⟩ := ih _ r h
      exact ⟨r0, List.mem_cons_of_mem _ hr0, heq⟩
    · rcases List.mem_cons.mp h with rfl | h
      · exact ⟨r1, List.mem_cons_self _ _, rfl⟩
      · obtain ⟨r0, hr0, heq⟩ := ih _ r h
        exact ⟨r0, List.mem_cons_of_mem _ hr0, heq⟩

/-- Claim C10: `_validate_results` deduplicates by key (lower-cased canonical
name, or lower-cased raw name for UNKNOWN rows), keeping the first occurrence:
the output never holds two rows with the same key, its key sequence is exactly
the first-occurrence deduplication of the input key sequence (later duplicates
silently dropped), and every kept row is an input row up to the
physiological-outlier flag update. -/
theorem C10_validation_dedup (results : List NormalizedResult) :
    ((validateResults results).map resultKey).Nodup ∧
    (validateResults results).map resultKey = dedupKeysGo [] (results.map resultKey) ∧
    ∀ r ∈ validateResults results, ∃ r0 ∈ results, r = applyPhysiologicalCheck r0 := by
  unfold validateResults
  refine ⟨?_, validateResultsGo_keys results [], fun r hr =>
    validateResultsGo_mem results [] r hr⟩
  rw [validateResultsGo_keys results []]
  exact (dedupKeysGo_nodup (results.map resultKey) []).1

/-- The normalizer state built from the sample vocabulary. -/
def sampleState : NormalizerState := NormalizerState.ofMappings sampleMappings

/-- An LLM oracle that always answers "NONE" (used for concrete runs where the
exact/alias path decides anyway, or where the LLM declines). -/
def orcNone : String → String → String := fun _ _ => "NONE"

/-- Invariants of the fuzzy fold: the running best score never increases, ends
below every candidate distance, and a returned key is witnessed by a candidate
achieving the final (minimal) score. -/
theorem fuzzyFold_aux (skip : String → Bool) (n : String) :
    ∀ (wl : List (String × String)) (acc : Option String × ℕ),
      (wl.foldl (fuzzyStep skip n) acc).2 ≤ acc.2 ∧
      (∀ av ∈ wl, skip av.2 = false → ¬av.1.length < 3 →
        (wl.foldl (fuzzyStep skip n) acc).2 ≤ levenshtein n av.1) ∧
      (∀ k, (wl.foldl (fuzzyStep skip n) acc).1 = some k →
        (acc.1 = some k ∧ (wl.foldl (fuzzyStep skip n) acc).2 = acc.2) ∨
        ∃ a, (a, k) ∈ wl ∧ skip k = false ∧ ¬a.length < 3 ∧
          levenshtein n a = (wl.foldl (fuzzyStep skip n) acc).2) := by
  intro wl
  induction wl with
  | nil =>
    intro acc
    exact ⟨le_refl _, by simp, fun k h => Or.inl ⟨h, rfl⟩⟩
  | cons av rest ih =>
    intro acc
    have hstep :
        (fuzzyStep skip n acc av = acc ∧
          (skip av.2 = false → ¬av.1.length < 3 → acc.2 ≤ levenshtein n av.1)) ∨
        (fuzzyStep skip n acc av = (some av.2, levenshtein n av.1) ∧
          skip av.2 = false ∧ ¬av.1.length < 3 ∧ levenshtein n av.1 < acc.2) := by
      unfold fuzzyStep
      by_cases hs : skip av.2 = true
      · left
        rw [if_pos hs]
        exact ⟨rfl, fun hsf _ => absurd hs (by simp [hsf])⟩
      rw [if_neg hs]
      by_cases hl : av.1.length < 3
      · left
        rw [if_pos hl]
        exact ⟨rfl, fun _ hlf => absurd hl hlf⟩
      rw [if_neg hl]
      by_cases hd : levenshtein n av.1 < acc.2
      · right
        rw [if_pos hd]
        exact ⟨rfl, by simpa using hs, hl, hd⟩
      · left
        rw [if_neg hd]
        exact ⟨rfl, fun _ _ => le_of_not_lt hd⟩
    have hfold : (av :: rest).foldl (fuzzyStep skip n) acc =
        rest.foldl (fuzzyStep skip n) (fuzzyStep skip n acc av) := rfl
    obtain ⟨ih1, ih2, ih3⟩ := ih (fuzzyStep skip n acc av)
    rcases hstep with ⟨heq, hge⟩ | ⟨heq, hs, hl, hd⟩
    · refine ⟨?_, ?_, ?_⟩
      · rw [hfold]
        calc (rest.foldl (fuzzyStep skip n) (fuzzyStep skip n acc av)).2 ≤
              (fuzzyStep skip n acc av).2 := ih1
          _ = acc.2 := by rw [heq]
      · intro av' hmem hs' hl'
        rcases List.mem_cons.mp hmem with heqv | hmem
        · subst heqv
          rw [hfold]
          calc (rest.foldl (fuzzyStep skip n) (fuzzyStep skip n acc av')).2 ≤
                (fuzzyStep skip n acc av').2 := ih1
            _ = acc.2 := by rw [heq]
            _ ≤ levenshtein n av'.1 := hge hs' hl'
        · rw [hfold]
          exact ih2 av' hmem hs' hl'
      · intro k hk
        rw [hfold] at hk
        rcases ih3 k hk with ⟨h1, h2⟩ | ⟨a, hmem, ha⟩
        · rw [heq] at h1
          rw [hfold]
          exact Or.inl ⟨h1, h2.trans (congrArg Prod.snd heq)⟩
        · exact Or.inr ⟨a, List.mem_cons_of_mem _ hmem, by rw [hfold]; exact ha⟩
    · refine ⟨?_, ?_, ?_⟩
      · rw [hfold]
        calc (rest.foldl (fuzzyStep skip n) (fuzzyStep skip n acc av)).2 ≤
              (fuzzyStep skip n acc av).2 := ih1
          _ = levenshtein n av.1 := by rw [heq]
          _ ≤ acc.2 := le_of_lt hd
      · intro av' hmem hs' hl'
        rcases List.mem_cons.mp hmem with heqv | hmem
        · subst heqv
          rw [hfold]
          calc (rest.foldl (fuzzyStep skip n) (fuzzyStep skip n acc av')).2 ≤
                (fuzzyStep skip n acc av').2 := ih1
            _ = levenshtein n av'.1 := by rw [heq]
        · rw [hfold]
          exact ih2 av' hmem hs' hl'
      · intro k hk
        rw [hfold] at hk
        rcases ih3 k hk with ⟨h1, h2⟩ | ⟨a, hmem, ha⟩
        · rw [heq] at h1
          obtain rfl : av.2 = k := Option.some.inj h1
          refine Or.inr ⟨av.1, List.mem_cons_self _ _, hs, hl, ?_⟩
          rw [hfold, h2, heq]
        · exact Or.inr ⟨a, List.mem_cons_of_mem _ hmem, by rw [hfold]; exact ha⟩

/-- Claim C3: when the mapper returns a fuzzy match for a name whose detected
panel has the (nonempty) candidate set `aks`, the chosen key is in that panel
set, the winning score is within the length-scaled budget (≤ 2 when the cleaned
name has fewer than 6 characters, ≤ 3 otherwise), it is minimal over all
panel-restricted candidates (aliases of length ≥ 3 mapping into the panel set),
and some such candidate attains it. -/
theorem C3_fuzzy_panel_scoped (st : NormalizerState) (oracle : String → String → String)
    (raw p : String) (aks : List String) (k : String)
    (hp : lookupPanel st.panelWhitelists p = some aks)
    (hne : aks.isEmpty = false)
    (h : mapTestName st oracle raw (some p) = (some k, "fuzzy")) :
    k ∈ aks ∧
    (fuzzyFold (panelSkip aks) (cleanName (pyStrip (pyLower raw))) st.whitelist).2 ≤
      fuzzyBudget (cleanName (pyStrip (pyLower raw))) ∧
    (st.whitelist.all fun av =>
      !(aks.contains av.2 && decide (3 ≤ av.1.length)) ||
      decide ((fuzzyFold (panelSkip aks) (cleanName (pyStrip (pyLower raw))) st.whitelist).2 ≤
        levenshtein (cleanName (pyStrip (pyLower raw))) av.1)) = true ∧
    (st.whitelist.any fun av =>
      (av.2 == k) && aks.contains av.2 && decide (3 ≤ av.1.length) &&
      decide (levenshtein (cleanName (pyStrip (pyLower raw))) av.1 =
        (fuzzyFold (panelSkip aks) (cleanName (pyStrip (pyLower raw))) st.whitelist).2)) =
      true := by
  simp only [mapTestName, mapAllowed] at h
  rw [hp] at h
  rcases he1 : exactStage st (some aks) (pyStrip (pyLower raw)) with _ | k1
  · rw [he1] at h
    dsimp only at h
    rcases he2 : exactStage st (some aks) (cleanName (pyStrip (pyLower raw))) with _ | k2
    · rw [he2] at h
      dsimp only at h
      rcases he3 : aliasStage st (some aks) (pyStrip (pyLower raw))
          (cleanName (pyStrip (pyLower raw))) with _ | k3
      · rw [he3] at h
        dsimp only at h
        by_cases hc :
            (fuzzyFold (skipOf (some aks)) (cleanName (pyStrip (pyLower raw)))
              st.whitelist).1.isSome = true ∧
            (fuzzyFold (skipOf (some aks)) (cleanName (pyStrip (pyLower raw)))
              st.whitelist).2 ≤ fuzzyBudget (cleanName (pyStrip (pyLower raw)))
        · rw [if_pos hc] at h
          rw [Prod.mk.injEq] at h
          have hskipeq : skipOf (some aks) = panelSkip aks := rfl
          rw [hskipeq] at hc h
          obtain ⟨haux1, haux2, haux3⟩ :=
            fuzzyFold_aux (panelSkip aks) (cleanName (pyStrip (pyLower raw)))
              st.whitelist (none, 999)
          obtain ⟨a, hmem, hskip, hlen, hdist⟩ :=
            (haux3 k h.1).resolve_left (fun hcon => by simp at hcon)
          have hmemk : k ∈ aks := by
            unfold panelSkip at hskip
            rw [hne] at hskip
            simp at hskip
            exact hskip
          refine ⟨hmemk, hc.2, ?_, ?_⟩
          · rw [List.all_eq_true]
            intro av hmem2
            by_cases hcont : av.2 ∈ aks
            · by_cases hlen3 : 3 ≤ av.1.length
              · have hskip2 : panelSkip aks av.2 = false := by
                  unfold panelSkip
                  rw [hne]
                  simp [hcont]
                have hmin2 : (fuzzyFold (panelSkip aks) (cleanName (pyStrip (pyLower raw)))
                    st.whitelist).2 ≤ levenshtein (cleanName (pyStrip (pyLower raw))) av.1 :=
                  haux2 av hmem2 hskip2 (by omega)
                simp [hmin2]
              · have hd3 : decide (3 ≤ av.1.length) = false := by simpa using hlen3
                simp [hd3]
            · simp [hcont]
          · rw [List.any_eq_true]
            refine ⟨(a, k), hmem, ?_⟩
            have hcont : aks.contains k = true := by
              unfold panelSkip at hskip
              rw [hne] at hskip
              simpa using hskip
            have hdist2 : levenshtein (cleanName (pyStrip (pyLower raw))) a =
                (fuzzyFold (panelSkip aks) (cleanName (pyStrip (pyLower raw)))
                  st.whitelist).2 := hdist
            have hlen2 : 3 ≤ a.length := by omega
            simp [hcont, hdist2, hlen2, hmemk]
        · rw [if_neg hc] at h
          rcases hl : llmPanelMatch st oracle raw p with _ | k4 <;> rw [hl] at h <;> simp at h
      · rw [he3] at h
        simp at h
    · rw [he2] at h
      simp at h
  · rw [he1] at h
    simp at h

/-- The CBC panel whitelist under the sample vocabulary. -/
def aksCbc : List String := ["hemoglobin", "red_blood_cells", "white_blood_cells", "rdw"]

set_option maxRecDepth 100000 in
/-- Witness for C3: the misspelling "Hemoglobinn" detects the CBC panel and
fuzzy-matches within it. -/
theorem C3_witness :
    "hemoglobin" ∈ aksCbc ∧
    (fuzzyFold (panelSkip aksCbc) (cleanName (pyStrip (pyLower "Hemoglobinn")))
        sampleState.whitelist).2 ≤
      fuzzyBudget (cleanName (pyStrip (pyLower "Hemoglobinn"))) ∧
    (sampleState.whitelist.all fun av =>
      !(aksCbc.contains av.2 && decide (3 ≤ av.1.length)) ||
      decide ((fuzzyFold (panelSkip aksCbc) (cleanName (pyStrip (pyLower "Hemoglobinn")))
          sampleState.whitelist).2 ≤
        levenshtein (cleanName (pyStrip (pyLower "Hemoglobinn"))) av.1)) = true ∧
    (sampleState.whitelist.any fun av =>
      (av.2 == "hemoglobin") && aksCbc.contains av.2 && decide (3 ≤ av.1.length) &&
      decide (levenshtein (cleanName (pyStrip (pyLower "Hemoglobinn"))) av.1 =
        (fuzzyFold (panelSkip aksCbc) (cleanName (pyStrip (pyLower "Hemoglobinn")))
          sampleState.whitelist).2)) = true :=
  C3_fuzzy_panel_scoped sampleState orcNone "Hemoglobinn" "cbc" aksCbc "hemoglobin"
    rfl rfl rfl

/-- Claim C2: an alias-stage result comes only from an identical-string hit
(never substring containment), for every vocabulary; and under the sample
vocabulary a row named "RBC" never normalizes to "Red Cell Distribution
Width", whatever the other rows of the document are. -/
theorem C2_alias_identity_rbc_safe :
    (∀ (st : NormalizerState) (oracle : String → String → String) (raw : String)
      (panel : Option String) (k : String),
      mapTestName st oracle raw panel = (some k, "alias") →
      ∃ a, (a, k) ∈ st.whitelist ∧
        (pyStrip (pyLower raw) = a ∨ cleanName (pyStrip (pyLower raw)) = a)) ∧
    (∀ (oracle : String → String → String) (rows : List RawRow) (r : NormalizedResult),
      r ∈ (normalize sampleState oracle rows).results → r.original_name = "RBC" →
      r.test_name ≠ "Red Cell Distribution Width") := by
  constructor
  · intro st oracle raw panel k h
    simp only [mapTestName] at h
    rcases he1 : exactStage st (mapAllowed st panel) (pyStrip (pyLower raw)) with _ | k1
    case _ =>
      rw [he1] at h
      dsimp only at h
      rcases he2 : exactStage st (mapAllowed st panel)
          (cleanName (pyStrip (pyLower raw))) with _ | k2
      case _ =>
        rw [he2] at h
        dsimp only at h
        rcases he3 : aliasStage st (mapAllowed st panel) (pyStrip (pyLower raw))
            (cleanName (pyStrip (pyLower raw))) with _ | k3
        case _ =>
          rw [he3] at h
          dsimp only at h
          by_cases hc :
              (fuzzyFold (skipOf (mapAllowed st panel)) (cleanName (pyStrip (pyLower raw)))
                st.whitelist).1.isSome = true ∧
              (fuzzyFold (skipOf (mapAllowed st panel)) (cleanName (pyStrip (pyLower raw)))
                st.whitelist).2 ≤ fuzzyBudget (cleanName (pyStrip (pyLower raw)))
          · rw [if_pos hc] at h
            simp at h
          · rw [if_neg hc] at h
            rcases panel with _ | p
            · simp at h
            · dsimp only at h
              rcases hl : llmPanelMatch st oracle raw p with _ | k4 <;>
                rw [hl] at h <;> simp at h
        case _ =>
          rw [he3] at h
          dsimp only at h
          rw [Prod.mk.injEq] at h
          obtain ⟨hk3, -⟩ := h
          have hkk : k3 = k := Option.some.inj hk3
          unfold aliasStage at he3
          obtain ⟨av, hmem, hav⟩ := List.exists_of_findSome?_eq_some he3
          split at hav
          · exact absurd hav (by simp)
          · split at hav
            case isTrue hcond =>
              have hav2 : av.2 = k := by
                have h0 : av.2 = k3 := Option.some.inj hav
                rw [h0, hkk]
              refine ⟨av.1, ?_, by tauto⟩
              rw [← hav2]
              simpa using hmem
            case isFalse hcond => exact absurd hav (by simp)
      case _ =>
        rw [he2] at h
        simp at h
    case _ =>
      rw [he1] at h
      simp at h
  · intro oracle rows r hmem hname
    have hmap : ∀ o : String → String → String,
        mapTestName sampleState o "RBC" (detectPanel "RBC") =
          (some "red_blood_cells", "exact") := fun _ => rfl
    simp only [normalize, List.mem_map, List.mem_filterMap] at hmem
    obtain ⟨pr, ⟨row, hrow, hproc⟩, hfst⟩ := hmem
    unfold processRow at hproc
    dsimp only at hproc
    split at hproc
    · exact absurd hproc (by simp)
    split at hproc
    · exact absurd hproc (by simp)
    split at hproc
    case _ heq =>
      -- unknown branch
      obtain rfl : _ = pr := Option.some.inj hproc
      subst hfst
      simp only at hname
      rw [hname] at heq
      rw [hmap oracle] at heq
      exact absurd heq (by simp)
    case _ key heq =>
      obtain rfl : _ = pr := Option.some.inj hproc
      subst hfst
      simp only at hname
      rw [hname] at heq
      rw [hmap oracle] at heq
      have hkey : key = "red_blood_cells" := (Option.some.inj heq).symm
      subst hkey
      intro hcon
      dsimp only at hcon
      exact absurd hcon (by decide)

/-- The two-row document of the C2 witness: an RDW row next to an RBC row. -/
def rowsC2 : List RawRow :=
  [{ test_name := some "RDW", value := some "13.5" },
   { test_name := some "RBC", value := some "5.2" }]

/-- An empty normalized-result placeholder. -/
def defaultNR : NormalizedResult := { test_name := "", original_name := "", value := "" }

/-- Witness for C2 at a concrete document that contains both an RDW row and an
RBC row. -/
theorem C2_witness :
    (((normalize sampleState orcNone rowsC2).results.getD 1 defaultNR).original_name = "RBC" →
      ((normalize sampleState orcNone rowsC2).results.getD 1 defaultNR).test_name ≠
        "Red Cell Distribution Width") ∧
    ((normalize sampleState orcNone rowsC2).results.getD 1 defaultNR).original_name = "RBC" := by
  have hres : (normalize sampleState orcNone rowsC2).results =
      [(normalize sampleState orcNone rowsC2).results.getD 0 defaultNR,
       (normalize sampleState orcNone rowsC2).results.getD 1 defaultNR] := rfl
  constructor
  · intro hname
    refine C2_alias_identity_rbc_safe.2 orcNone rowsC2 _ ?_ hname
    rw [hres]
    exact List.mem_cons_of_mem _ (List.mem_singleton.mpr rfl)
  · rfl

/-- The C6 counterexample row: a non-empty name the skip filter classifies as
boilerplate ("sample" is a skip pattern). -/
def rowSample : RawRow := { test_name := some "Sample", value := some "1" }

/-- Counterexample to claim C6 as stated: the row named "Sample" has a
non-empty test name and fails mapping at every stage (no panel is detected, so
not even the LLM stage runs), yet `normalize` silently drops it — no UNKNOWN
row is emitted and the unresolved-names list stays empty — because
`_is_non_test_text` discards it before mapping. -/
theorem C6_counterexample :
    pyStrip (pyGet2 rowSample.test_name rowSample.test_raw) = "Sample" ∧
    mapTestName sampleState orcNone "Sample" (detectPanel "Sample") = (none, "unknown") ∧
    (normalize sampleState orcNone [rowSample]).results = [] ∧
    (normalize sampleState orcNone [rowSample]).unknown_tests = [] :=
  ⟨rfl, rfl, rfl, rfl⟩

/-- Claim C6 (amended): for every input row with a non-empty test name that
passes the non-test-text filter and fails mapping at all stages, `normalize`
never drops the row — it emits a result with canonical name "UNKNOWN", the raw
name retained, needs-review set with a review reason, mapping method
"unknown", and the raw name in the unresolved-names list. -/
theorem C6_unknown_rows_preserved (st : NormalizerState)
    (oracle : String → String → String) (rows : List RawRow) (row : RawRow)
    (hrow : row ∈ rows)
    (h1 : pyStrip (pyGet2 row.test_name row.test_raw) ≠ "")
    (h2 : isNonTestText (pyStrip (pyGet2 row.test_name row.test_raw)) = false)
    (h3 : (mapTestName st oracle (pyStrip (pyGet2 row.test_name row.test_raw))
        (detectPanel (pyStrip (pyGet2 row.test_name row.test_raw)))).1 = none) :
    ((normalize st oracle rows).results.any fun r =>
      (r.test_name == "UNKNOWN") &&
      (r.original_name == pyStrip (pyGet2 row.test_name row.test_raw)) &&
      r.needs_review &&
      (r.review_reason == "Unmapped: " ++ pyStrip (pyGet2 row.test_name row.test_raw)) &&
      (r.mapping_method == "unknown")) = true ∧
    pyStrip (pyGet2 row.test_name row.test_raw) ∈ (normalize st oracle rows).unknown_tests := by
  have hp : processRow st oracle row = some
      ({ test_name := "UNKNOWN"
         original_name := pyStrip (pyGet2 row.test_name row.test_raw)
         value := (parseValue (pyGet2 row.value row.value_raw)).1
         value_numeric := (parseValue (pyGet2 row.value row.value_raw)).2
         unit := pyGet2 row.unit row.unit_raw
         reference_range := pyGet2 row.reference_range row.ref_raw
         ref_low := (parseReferenceRange (pyGet2 row.reference_range row.ref_raw)).1
         ref_high := (parseReferenceRange (pyGet2 row.reference_range row.ref_raw)).2
         flag := normalizeFlag (pyGet2 row.flag row.flag_raw) (pyGet2 row.value row.value_raw)
         needs_review := true
         review_reason := "Unmapped: " ++ pyStrip (pyGet2 row.test_name row.test_raw)
         mapping_method := "unknown" },
       some (pyStrip (pyGet2 row.test_name row.test_raw))) := by
    unfold processRow
    dsimp only
    rw [if_neg h1, if_neg (by simp [h2]), h3]
  constructor
  · rw [List.any_eq_true]
    refine ⟨_, List.mem_map.mpr ⟨_, List.mem_filterMap.mpr ⟨row, hrow, hp⟩, rfl⟩, ?_⟩
    simp
  · exact List.mem_filterMap.mpr ⟨_, List.mem_filterMap.mpr ⟨row, hrow, hp⟩, rfl⟩

/-- The C6 witness row: a name no stage can map. -/
def rowZz : RawRow := { test_name := some "Zzzz", value := some "7" }

/-- Witness for C6 (amended) at a concrete unmappable row. -/
theorem C6_witness :
    ((normalize sampleState orcNone [rowZz]).results.any fun r =>
      (r.test_name == "UNKNOWN") &&
      (r.original_name == pyStrip (pyGet2 rowZz.test_name rowZz.test_raw)) &&
      r.needs_review &&
      (r.review_reason == "Unmapped: " ++ pyStrip (pyGet2 rowZz.test_name rowZz.test_raw)) &&
      (r.mapping_method == "unknown")) = true ∧
    pyStrip (pyGet2 rowZz.test_name rowZz.test_raw) ∈
      (normalize sampleState orcNone [rowZz]).unknown_tests :=
  C6_unknown_rows_preserved sampleState orcNone [rowZz] rowZz (by simp)
    (by decide) rfl rfl

/-- The C7 counterexample row: no flag text, parsed value 5 below the parsed
reference low 10 of a one-sided range. -/
def rowHbLow : RawRow :=
  { test_name := some "Hemoglobin", value := some "5.0", reference_range := some ">10",
    flag := some "" }

/-- The numeric value "5.0" parses to 5. -/
theorem strToRat_five : strToRat ['5', '.', '0'] = 5 := by
  have h : strToRat ['5', '.', '0'] =
      ((5 : ℕ) : ℚ) + ((0 : ℕ) : ℚ) / (10 : ℚ) ^ 1 := rfl
  rw [h]
  norm_num

/-- The single number of ">10" parses to 10. -/
theorem strToRat_ten : strToRat ['1', '0'] = 10 := by
  have h : strToRat ['1', '0'] = ((10 : ℕ) : ℚ) := rfl
  rw [h]
  norm_num

/-- Counterexample to claim C7 as stated: with the one-sided range ">10" the
parsed value 5 lies below the parsed reference low 10 and no flag text is
present, yet the emitted row is NOT marked needs-review — the range check at
strict_normalizer.py line 281 additionally requires a parsed reference high. -/
theorem C7_counterexample :
    ((normalize sampleState orcNone [rowHbLow]).results.getD 0 defaultNR).value_numeric =
      some (strToRat ['5', '.', '0']) ∧
    ((normalize sampleState orcNone [rowHbLow]).results.getD 0 defaultNR).ref_low =
      some (strToRat ['1', '0']) ∧
    strToRat ['5', '.', '0'] < strToRat ['1', '0'] ∧
    ((normalize sampleState orcNone [rowHbLow]).results.getD 0 defaultNR).ref_high = none ∧
    ((normalize sampleState orcNone [rowHbLow]).results.getD 0 defaultNR).flag = "" ∧
    ((normalize sampleState orcNone [rowHbLow]).results.getD 0 defaultNR).needs_review =
      false := by
  refine ⟨rfl, rfl, ?_, rfl, rfl, rfl⟩
  rw [strToRat_five, strToRat_ten]
  norm_num

/-- The range check marks the row once the value undercuts the parsed low (with
both bounds parsed). -/
theorem rangeReview_low (v lo hi : ℚ) (r0 : Bool × String) (h : v < lo) :
    (rangeReview (some v) (some lo) (some hi) r0).1 = true := by
  unfold rangeReview
  dsimp only
  rw [if_pos (Or.inl h)]
  by_cases h0 : r0.1 = false
  · rw [if_pos h0]
  · rw [if_neg h0]
    simpa using h0

/-- Claim C7 (amended): flag text "HIGH" always normalizes to "H"; and every
emitted row whose parsed numeric value lies below the parsed reference low is
marked needs-review — provided the reference high was parsed as well (the code
skips the range check when either bound is missing). -/
theorem C7_flag_high_and_low_value_review :
    (∀ valueRaw : String, normalizeFlag "HIGH" valueRaw = "H") ∧
    (∀ (st : NormalizerState) (oracle : String → String → String) (rows : List RawRow)
      (r : NormalizedResult) (v lo hi : ℚ),
      r ∈ (normalize st oracle rows).results →
      r.value_numeric = some v → r.ref_low = some lo → r.ref_high = some hi →
      v < lo → r.needs_review = true) := by
  constructor
  · intro valueRaw
    rfl
  · intro st oracle rows r v lo hi hmem hv hlo hhi hvlt
    simp only [normalize, List.mem_map, List.mem_filterMap] at hmem
    obtain ⟨pr, ⟨row, hrow, hproc⟩, hfst⟩ := hmem
    unfold processRow at hproc
    dsimp only at hproc
    split at hproc
    · exact absurd hproc (by simp)
    split at hproc
    · exact absurd hproc (by simp)
    split at hproc
    case _ heq =>
      obtain rfl : _ = pr := Option.some.inj hproc
      subst hfst
      rfl
    case _ key heq =>
      obtain rfl : _ = pr := Option.some.inj hproc
      subst hfst
      dsimp only at hv hlo hhi ⊢
      rw [hv, hlo, hhi]
      exact rangeReview_low v lo hi _ hvlt

/-- The C7 witness row: both reference bounds parsed, value below the low. -/
def rowHbBoth : RawRow :=
  { test_name := some "Hemoglobin", value := some "5.0", reference_range := some "10 - 17",
    flag := some "" }

/-- Witness for C7 (amended): "HIGH" normalizes to "H", and the concrete
below-range row is marked needs-review. -/
theorem C7_witness :
    normalizeFlag "HIGH" "150" = "H" ∧
    ((normalize sampleState orcNone [rowHbBoth]).results.getD 0 defaultNR).needs_review =
      true := by
  constructor
  · exact C7_flag_high_and_low_value_review.1 "150"
  · have hres : (normalize sampleState orcNone [rowHbBoth]).results =
        [(normalize sampleState orcNone [rowHbBoth]).results.getD 0 defaultNR] := rfl
    refine C7_flag_high_and_low_value_review.2 sampleState orcNone [rowHbBoth] _
      (strToRat ['5', '.', '0']) (strToRat ['1', '0']) (strToRat ['1', '7'])
      ?_ rfl rfl rfl ?_
    · rw [hres]
      exact List.mem_singleton.mpr rfl
    · rw [strToRat_five, strToRat_ten]
      norm_num

end LabExtraction
